import Mathlib

/-!
Shallow embedding of the tracer engine of `src/OrbitLinuxTracing/TracerThread.cpp`
(namespace LinuxTracing).  Perf event file descriptors are modelled as natural
numbers allocated from a counter; the kernel and the filesystem are modelled as
an oracle (`PerfEnv`) saying which `perf_event_open` calls and which ring-buffer
mmaps succeed.  The setup phase of `TracerThread::Run` becomes a state machine
over `SetupState`; the per-record dispatch routines (`ProcessSampleEvent`,
`ProcessContextSwitchCpuWideEvent`, `ProcessLostEvent`) become pure functions
from decoded records to the actions they perform.
-/

namespace LinuxTracing

/-- A perf event file descriptor, as returned by `perf_event_open`.  Only
successfully opened descriptors are modelled (a failed open returns -1 in the
code and allocates nothing). -/
abbrev Fd := Nat

/-! ## Sample dispatch: `TracerThread::ProcessSampleEvent` (lines 507-563) -/

/-- The part of the `TracerThread` state that `ProcessSampleEvent` consults:
the traced pid `pid_`, the uprobes ring-buffer root fds `uprobes_fds_`, the GPU
tracepoint fds `gpu_tracing_fds_`, the stream-id-to-function map
`uprobes_ids_to_function_` (function refs are modelled as indices into
`instrumented_functions_`), and the constant `sizeof(perf_event_empty_sample)`
(defined in a header outside `src/`, hence kept abstract as a field). -/
structure SampleDispatchCtx where
  tracedPid : Nat
  uprobesFds : List Fd
  gpuTracingFds : List Fd
  uprobesIdsToFunction : List (Nat × Nat)
  emptySampleSize : Nat
  deriving Repr, DecidableEq

/-- A decoded `PERF_RECORD_SAMPLE` record: the fd of the ring buffer it was
read from (`ring_buffer->GetFileDescriptor()`), `header.size`, the pid stored
in the record (read by `ReadSampleRecordPid`, or by `ReadUretprobesRecordPid`
at the uretprobe-specific offset, both reading the record's pid field), and the
perf stream id. -/
structure SampleRecord where
  fd : Fd
  headerSize : Nat
  pid : Nat
  streamId : Nat
  deriving Repr, DecidableEq

/-- What `ProcessSampleEvent` does with one record. -/
inductive SampleAction where
  /-- `CHECK(!(is_probe && is_gpu_event))` fired. -/
  | checkFailed
  /-- `ring_buffer->SkipRecord(header); return;`: nothing materialized,
  nothing deferred, no listener call. -/
  | skipRecord
  /-- A `UprobesWithStackPerfEvent` was consumed, its function set from the
  stream-id map, its origin fd set, and the event deferred. -/
  | deferUprobesWithStack (function : Option Nat) (originFd : Fd)
  /-- A `UretprobesPerfEvent` was consumed, its function set from the
  stream-id map, its origin fd set, and the event deferred. -/
  | deferUretprobes (function : Option Nat) (originFd : Fd)
  /-- The raw sample was consumed and pushed synchronously to
  `gpu_event_processor_`. -/
  | pushGpuEvent (originFd : Fd)
  /-- A `StackSamplePerfEvent` was consumed, its origin fd set, and the event
  deferred. -/
  | deferStackSample (originFd : Fd)
  deriving Repr, DecidableEq

/-- Which stats counter a processing step increments. -/
inductive StatCounter where
  | schedSwitch
  | sample
  | uprobes
  | gpuEvents
  deriving Repr, DecidableEq

/-- `TracerThread::ProcessSampleEvent` (lines 507-563): classify the sample by
its originating fd (`uprobes_fds_` membership makes it a probe,
`gpu_tracing_fds_` membership a GPU event; a uretprobe is a probe record whose
`header.size` equals `sizeof(perf_event_empty_sample)`), skip records of other
processes unless they are GPU events, and materialize/defer the corresponding
event.  Returns the action taken and the stats counter incremented. -/
def ProcessSampleEvent (ctx : SampleDispatchCtx) (r : SampleRecord) :
    SampleAction × Option StatCounter :=
  let fd := r.fd
  let is_probe := ctx.uprobesFds.contains fd
  let is_gpu_event := ctx.gpuTracingFds.contains fd
  if is_probe && is_gpu_event then (.checkFailed, none)
  else
    let is_uretprobe := is_probe && (r.headerSize == ctx.emptySampleSize)
    let is_uprobe := is_probe && !is_uretprobe
    let pid := r.pid
    if pid != ctx.tracedPid && !is_gpu_event then (.skipRecord, none)
    else if is_uprobe then
      (.deferUprobesWithStack (ctx.uprobesIdsToFunction.lookup r.streamId) fd,
       some .uprobes)
    else if is_uretprobe then
      (.deferUretprobes (ctx.uprobesIdsToFunction.lookup r.streamId) fd,
       some .uprobes)
    else if is_gpu_event then (.pushGpuEvent fd, some .gpuEvents)
    else (.deferStackSample fd, some .sample)

/-! ## Context switches: `TracerThread::ProcessContextSwitchCpuWideEvent`
(lines 445-463) -/

/-- A call delivered to the `TracerListener`. -/
inductive ListenerCall where
  | onContextSwitchIn (tid cpu time : Nat)
  | onContextSwitchOut (tid cpu time : Nat)
  | onTid (tid : Nat)
  deriving Repr, DecidableEq

/-- A decoded `PERF_RECORD_SWITCH_CPU_WIDE` record. -/
structure SwitchRecord where
  tid : Nat
  cpu : Nat
  time : Nat
  isSwitchOut : Bool
  deriving Repr, DecidableEq

/-- `TracerThread::ProcessContextSwitchCpuWideEvent` (lines 445-463): consume
the record; if the tid is nonzero (tid 0 is the idle state and is discarded)
deliver one `OnContextSwitchOut`/`OnContextSwitchIn` call; always increment
`stats_.sched_switch_count`.  The cpu is passed through
`static_cast<uint16_t>`, hence the `% 65536`. -/
def ProcessContextSwitchCpuWideEvent (r : SwitchRecord) :
    List ListenerCall × StatCounter :=
  let tid := r.tid
  let cpu := r.cpu % 65536
  let time := r.time
  (if tid ≠ 0 then
    [if r.isSwitchOut then .onContextSwitchOut tid cpu time
     else .onContextSwitchIn tid cpu time]
   else [], .schedSwitch)

/-- Dispatching a list of `PERF_RECORD_SWITCH_CPU_WIDE` records in order, as
the main loop's `case PERF_RECORD_SWITCH_CPU_WIDE` does for consecutive
records of a ring buffer: the concatenation of the listener calls. -/
def DispatchSwitchCpuWideRecords (rs : List SwitchRecord) : List ListenerCall :=
  (rs.map (fun r => (ProcessContextSwitchCpuWideEvent r).1)).flatten

/-! ## Statistics: `EventStats`, `TracerThread::ProcessLostEvent` (lines
565-571) and `PrintStatsIfTimerElapsed` (lines 616-635) -/

/-- `EventStats`: the windowed counters.  `lostCountPerBuffer` models the
`absl::flat_hash_map<PerfEventRingBuffer*, uint64_t>` keyed by ring buffer as
an association list keyed by a ring buffer identifier. -/
structure EventStats where
  schedSwitchCount : Nat
  sampleCount : Nat
  uprobesCount : Nat
  gpuEventsCount : Nat
  lostCount : Nat
  lostCountPerBuffer : List (Nat × Nat)
  deriving Repr, DecidableEq

/-- Modelled from the spec: `EventStats::Reset` is declared outside `src/`;
per spec section 3 the stats counters (by kind, lost total and lost
per ring buffer) are "Reset at trace start and every reporting window", so
reset zeroes every counter and clears the per-buffer loss map. -/
def EventStats.emptied : EventStats :=
  { schedSwitchCount := 0, sampleCount := 0, uprobesCount := 0,
    gpuEventsCount := 0, lostCount := 0, lostCountPerBuffer := [] }

/-- `map[key] += n` on the association list: `operator[]` default-constructs a
zero entry for an absent key, then `+=` adds to it. -/
def bumpAssoc : List (Nat × Nat) → Nat → Nat → List (Nat × Nat)
  | [], b, n => [(b, n)]
  | (k, v) :: rest, b, n =>
      if k = b then (k, v + n) :: rest else (k, v) :: bumpAssoc rest b n

/-- `TracerThread::ProcessLostEvent` (lines 565-571): add the record's loss
count to `stats_.lost_count` and to `stats_.lost_count_per_buffer` at the ring
buffer the record was read from. -/
def ProcessLostEvent (stats : EventStats) (buffer : Nat) (numLost : Nat) :
    EventStats :=
  { stats with
    lostCount := stats.lostCount + numLost,
    lostCountPerBuffer := bumpAssoc stats.lostCountPerBuffer buffer numLost }

/-- The operations a run performs on `stats_`: the per-kind increments in the
record processors, `ProcessLostEvent`, and the window reset performed by
`PrintStatsIfTimerElapsed` (and by `Run` before the main loop). -/
inductive StatsOp where
  | lost (buffer : Nat) (numLost : Nat)
  | sched
  | sample
  | uprobe
  | gpu
  | windowReset
  deriving Repr, DecidableEq

/-- Apply one stats operation. -/
def applyStatsOp (s : EventStats) : StatsOp → EventStats
  | .lost b n => ProcessLostEvent s b n
  | .sched => { s with schedSwitchCount := s.schedSwitchCount + 1 }
  | .sample => { s with sampleCount := s.sampleCount + 1 }
  | .uprobe => { s with uprobesCount := s.uprobesCount + 1 }
  | .gpu => { s with gpuEventsCount := s.gpuEventsCount + 1 }
  | .windowReset => EventStats.emptied

/-- The stats state after a run performed the given operations in order,
starting from the reset done at trace start (`stats_.Reset()`, line 320). -/
def runStats (ops : List StatsOp) : EventStats :=
  ops.foldl applyStatsOp EventStats.emptied

/-- `sum(lost_per_buffer.values())`. -/
def sumLostPerBuffer (s : EventStats) : Nat :=
  (s.lostCountPerBuffer.map Prod.snd).sum

/-! ## Shutdown: the tail of `TracerThread::Run` (lines 409-426) -/

/-- The externally observable steps of the shutdown sequence. -/
inductive ShutdownAction where
  /-- `stop_deferred_thread_ = true`. -/
  | setStopDeferredThread
  /-- `deferred_events_thread.join()`. -/
  | joinDeferredThread
  /-- `uprobes_event_processor_->ProcessAllEvents()`. -/
  | processAllEvents
  /-- `perf_event_disable(fd)`. -/
  | disableFd (fd : Fd)
  /-- A `PerfEventRingBuffer` destroyed by `ring_buffers_.clear()`,
  unmapping its mmap region; identified by its root fd. -/
  | unmapRingBuffer (fd : Fd)
  /-- `close(fd)`. -/
  | closeFd (fd : Fd)
  deriving Repr, DecidableEq

/-- The trace of actions the tail of `TracerThread::Run` (lines 409-426)
performs once `exit_requested` is observed: stop flag, join, final flush, then
disable every fd of `tracing_fds_` in order, destroy all ring buffers, and
close every fd of `tracing_fds_` in order. -/
def ShutdownTrace (tracingFds : List Fd) (ringBufferFds : List Fd) :
    List ShutdownAction :=
  [.setStopDeferredThread, .joinDeferredThread, .processAllEvents]
    ++ tracingFds.map .disableFd
    ++ ringBufferFds.map .unmapRingBuffer
    ++ tracingFds.map .closeFd

/-! ## Trace setup: the opening phase of `TracerThread::Run` (lines 119-313)

File descriptors are allocated from a counter, so every successful open yields
a fresh fd.  Which opens and which ring-buffer mmaps succeed is dictated by an
oracle `PerfEnv`.  Two fields of `SetupState` are ghost instrumentation that
the C++ code does not store but that the verification observes: `openedFds`
(every fd any `*_event_open` ever returned), `leakedFds` (fds on which the
code took the branch that neither commits nor closes them) and
`committedProbePairs` (the (function, cpu, uretprobe fd, uprobe fd) tuples
whose commitment completed). -/

/-- The caller-supplied configuration of the tracer (fields of
`TracerThread`). Instrumented functions are modelled by their index. -/
structure TracerConfig where
  numCores : Nat
  traceContextSwitches : Bool
  traceInstrumentedFunctions : Bool
  traceCallstacks : Bool
  traceGpuDriverEvents : Bool
  instrumentedFunctions : List Nat

/-- The oracle for the kernel and the filesystem: which `perf_event_open`
calls succeed, which ring-buffer mmaps succeed, the cpuset read from the
cgroup, stream ids, and which tracepoint ids are resolvable.  Tracepoints are
indexed 0 = `amdgpu:amdgpu_cs_ioctl`, 1 = `amdgpu:amdgpu_sched_run_job`,
2 = `dma_fence:dma_fence_signaled`. -/
structure PerfEnv where
  cpusetCpus : List Nat
  contextSwitchOpenOk : Nat → Bool
  contextSwitchMapOk : Nat → Bool
  mmapTaskOpenOk : Nat → Bool
  mmapTaskMapOk : Nat → Bool
  sampleOpenOk : Nat → Bool
  sampleMapOk : Nat → Bool
  uprobesOpenOk : Nat → Nat → Bool
  uretprobesOpenOk : Nat → Nat → Bool
  tracepointIdOk : Nat → Bool
  gpuPerfOpenOk : Nat → Nat → Bool
  gpuMapOk : Nat → Nat → Bool
  streamId : Fd → Nat

/-- The fd/ring-buffer bookkeeping state of `TracerThread` during setup.
`ringBuffers` records each `PerfEventRingBuffer` of `ring_buffers_` by its
root fd. -/
structure SetupState where
  nextFd : Fd
  openedFds : List Fd
  closedFds : List Fd
  tracingFds : List Fd
  uprobesFds : List Fd
  gpuTracingFds : List Fd
  ringBuffers : List Fd
  uprobesIdsToFunction : List (Nat × Nat)
  gpuEventProcessor : Bool
  perfEventOpenErrors : Bool
  uprobesEventOpenErrors : Bool
  gpuEventOpenErrors : Bool
  leakedFds : List Fd
  committedProbePairs : List (Nat × Nat × Fd × Fd)
  deriving Repr, DecidableEq

/-- The state after `Reset()` on a freshly constructed `TracerThread` (fds
start above stdin/stdout/stderr; `gpu_event_processor_` starts null). -/
def SetupState.initial : SetupState :=
  { nextFd := 3, openedFds := [], closedFds := [], tracingFds := [],
    uprobesFds := [], gpuTracingFds := [], ringBuffers := [],
    uprobesIdsToFunction := [], gpuEventProcessor := false,
    perfEventOpenErrors := false, uprobesEventOpenErrors := false,
    gpuEventOpenErrors := false, leakedFds := [], committedProbePairs := [] }

/-- A successful `*_event_open`: returns a fresh fd. -/
def openFd (s : SetupState) : Fd × SetupState :=
  (s.nextFd,
   { s with nextFd := s.nextFd + 1, openedFds := s.openedFds ++ [s.nextFd] })

/-- The common shape of the context-switch (lines 145-158), mmap/task (lines
264-275) and sampling (lines 277-290) per-cpu blocks: open the fd, construct a
`PerfEventRingBuffer` for it; if the ring buffer is open, push the fd to
`tracing_fds_` and the buffer to `ring_buffers_`; otherwise only set
`perf_event_open_errors`.  When the open itself failed (fd -1) the ring buffer
is also not open and nothing was allocated.  When the open succeeded but the
mmap failed, the code closes nothing: the fd goes to the ghost `leakedFds`. -/
def openSimpleSourceOnCpu (openOk mapOk : Bool) (s : SetupState) : SetupState :=
  if openOk then
    let (fd, s1) := openFd s
    if mapOk then
      { s1 with tracingFds := s1.tracingFds ++ [fd],
                ringBuffers := s1.ringBuffers ++ [fd] }
    else
      { s1 with perfEventOpenErrors := true,
                leakedFds := s1.leakedFds ++ [fd] }
  else { s with perfEventOpenErrors := true }

/-- Lines 145-158: `context_switch_event_open(-1, cpu)` plus its ring buffer. -/
def openContextSwitchOnCpu (env : PerfEnv) (s : SetupState) (cpu : Nat) :
    SetupState :=
  openSimpleSourceOnCpu (env.contextSwitchOpenOk cpu)
    (env.contextSwitchMapOk cpu) s

/-- Lines 264-275: `mmap_task_event_open(-1, cpu)` plus its ring buffer. -/
def openMmapTaskOnCpu (env : PerfEnv) (s : SetupState) (cpu : Nat) :
    SetupState :=
  openSimpleSourceOnCpu (env.mmapTaskOpenOk cpu)
    (env.mmapTaskMapOk cpu) s

/-- Lines 277-290: `sample_event_open(sampling_period_ns_, -1, cpu)` plus its
ring buffer. -/
def openSamplingOnCpu (env : PerfEnv) (s : SetupState) (cpu : Nat) :
    SetupState :=
  openSimpleSourceOnCpu (env.sampleOpenOk cpu)
    (env.sampleMapOk cpu) s

/-- Modelled from the spec: `tracepoint_event_open` is declared outside
`src/`; per spec section 6 tracepoints are opened "by `(category, name)`
resolved to ids via `/sys/kernel/debug/tracing/events/<cat>/<name>/id`", so
the open fails when the tracepoint id cannot be resolved, and otherwise
succeeds when the kernel accepts the `perf_event_open`. -/
def tracepointEventOpen (env : PerfEnv) (tp cpu : Nat) (s : SetupState) :
    Option (Fd × SetupState) :=
  if env.tracepointIdOk tp && env.gpuPerfOpenOk tp cpu then some (openFd s)
  else none

/-- `TracerThread::OpenRingBufferForGpuTracepoint` (lines 29-49): open the
tracepoint system-wide on the cpu; on success push the fd to the local
`gpu_tracing_fds` vector, then construct the ring buffer and push it to the
local `ring_buffers` vector only if it mapped.  Returns whether everything
succeeded, the two local vectors, and the state. -/
def OpenRingBufferForGpuTracepoint (env : PerfEnv) (tp cpu : Nat)
    (gpuTracingFds ringBuffers : List Fd) (s : SetupState) :
    Bool × List Fd × List Fd × SetupState :=
  match tracepointEventOpen env tp cpu s with
  | none => (false, gpuTracingFds, ringBuffers, s)
  | some (fd, s1) =>
      if env.gpuMapOk tp cpu then
        (true, gpuTracingFds ++ [fd], ringBuffers ++ [fd], s1)
      else (false, gpuTracingFds ++ [fd], ringBuffers, s1)

/-- The body of the cpu loop of `TracerThread::OpenGpuTracepoints` (lines
67-83): try the three tracepoints in order, stopping at the first failure. -/
def openGpuTracepointsForCpu (env : PerfEnv) (cpu : Nat)
    (gpuTracingFds ringBuffers : List Fd) (s : SetupState) :
    Bool × List Fd × List Fd × SetupState :=
  let t0 :=
    OpenRingBufferForGpuTracepoint env 0 cpu gpuTracingFds ringBuffers s
  if t0.1 then
    let t1 :=
      OpenRingBufferForGpuTracepoint env 1 cpu t0.2.1 t0.2.2.1 t0.2.2.2
    if t1.1 then
      OpenRingBufferForGpuTracepoint env 2 cpu t1.2.1 t1.2.2.1 t1.2.2.2
    else (false, t1.2)
  else (false, t0.2)

/-- The cpu loop of `TracerThread::OpenGpuTracepoints`. -/
def openGpuTracepointsLoop (env : PerfEnv) :
    List Nat → List Fd → List Fd → SetupState →
    Bool × List Fd × List Fd × SetupState
  | [], gpuTracingFds, ringBuffers, s => (true, gpuTracingFds, ringBuffers, s)
  | cpu :: rest, gpuTracingFds, ringBuffers, s =>
      let t := openGpuTracepointsForCpu env cpu gpuTracingFds ringBuffers s
      if t.1 then openGpuTracepointsLoop env rest t.2.1 t.2.2.1 t.2.2.2
      else (false, t.2)

/-- `TracerThread::OpenGpuTracepoints` (lines 64-96): open all three
tracepoints on every cpu into local vectors; on any failure
`CloseFileDescriptors(gpu_tracing_fds)` closes every fd opened so far and the
local ring buffers are destroyed, committing nothing; on success commit every
fd to `gpu_tracing_fds_` and `tracing_fds_` and every ring buffer to
`ring_buffers_`. -/
def OpenGpuTracepoints (env : PerfEnv) (cpus : List Nat) (s : SetupState) :
    Bool × SetupState :=
  let t := openGpuTracepointsLoop env cpus [] [] s
  if t.1 then
    (true,
     { t.2.2.2 with gpuTracingFds := t.2.2.2.gpuTracingFds ++ t.2.1,
                    tracingFds := t.2.2.2.tracingFds ++ t.2.1,
                    ringBuffers := t.2.2.2.ringBuffers ++ t.2.2.1 })
  else (false, { t.2.2.2 with closedFds := t.2.2.2.closedFds ++ t.2.1 })

/-- `TracerThread::InitGpuTracepointEventProcessor` (lines 98-116): resolve
the three tracepoint ids (`GetTracepointId`, the same `/sys/.../id` resolution
as `tracepoint_event_open`); if any fails, return leaving
`gpu_event_processor_` null; otherwise construct the processor. -/
def InitGpuTracepointEventProcessor (env : PerfEnv) (s : SetupState) :
    SetupState :=
  if env.tracepointIdOk 0 && env.tracepointIdOk 1 && env.tracepointIdOk 2 then
    { s with gpuEventProcessor := true }
  else s

/-! ### Instrumented-function probes (lines 173-262) -/

/-- The per-function open loop (lines 181-197): for each cpu of the cpuset,
open the uprobe (entry) fd and then the uretprobe (return) fd, recording them
in `function_uprobes_fds_per_cpu` / `function_uretprobes_fds_per_cpu`
(association lists cpu → fd, in cpu order); `break` at the first failed open.
Returns (`function_uprobes_open_error`, the two maps, the state). -/
def openUprobesForFunctionLoop (env : PerfEnv) (f : Nat) :
    List Nat → List (Nat × Fd) → List (Nat × Fd) → SetupState →
    Bool × List (Nat × Fd) × List (Nat × Fd) × SetupState
  | [], ups, rets, s => (false, ups, rets, s)
  | cpu :: rest, ups, rets, s =>
      if env.uprobesOpenOk f cpu then
        let u := openFd s
        let ups1 := ups ++ [(cpu, u.1)]
        if env.uretprobesOpenOk f cpu then
          let v := openFd u.2
          openUprobesForFunctionLoop env f rest ups1 (rets ++ [(cpu, v.1)]) v.2
        else (true, ups1, rets, u.2)
      else (true, ups, rets, s)

/-- One step of the ring-buffer consolidation loop (lines 236-260) for one
cpu: if `uprobes_ring_buffer_fds_per_cpu` already has a ring buffer fd for the
cpu, redirect the function's uprobe and uretprobe fds to it (no tracked-state
change); otherwise the function's uprobe fd becomes the cpu's ring buffer
root: a ring buffer is created for it, it is recorded in `uprobes_fds_` and in
`uprobes_ring_buffer_fds_per_cpu`, and the uretprobe fd is redirected to
it. -/
def redirectUprobesOnCpu (ups : List (Nat × Fd))
    (acc : List (Nat × Fd) × SetupState) (cpu : Nat) :
    List (Nat × Fd) × SetupState :=
  let ufd := (ups.lookup cpu).getD 0
  match acc.1.lookup cpu with
  | some _ => acc
  | none =>
      (acc.1 ++ [(cpu, ufd)],
       { acc.2 with ringBuffers := acc.2.ringBuffers ++ [ufd],
                    uprobesFds := acc.2.uprobesFds ++ [ufd] })

/-- The body of the function loop (lines 176-261): run the open loop; on any
open failure set both error flags and close every fd opened for this function,
committing nothing (`continue`); otherwise commit the uretprobe fds to
`tracing_fds_` before the uprobe fds, record the stream-id-to-function
associations, and consolidate ring buffers per cpu.  The ghost
`committedProbePairs` records the committed (function, cpu, uretprobe fd,
uprobe fd) tuples. -/
def ProcessInstrumentedFunction (env : PerfEnv) (cpus : List Nat) (f : Nat)
    (acc : List (Nat × Fd) × SetupState) : List (Nat × Fd) × SetupState :=
  let t := openUprobesForFunctionLoop env f cpus [] [] acc.2
  let ups := t.2.1
  let rets := t.2.2.1
  let s1 := t.2.2.2
  if t.1 then
    (acc.1,
     { s1 with
       perfEventOpenErrors := true,
       uprobesEventOpenErrors := true,
       closedFds := s1.closedFds ++ ups.map Prod.snd ++ rets.map Prod.snd })
  else
    let s2 :=
      { s1 with
        tracingFds := s1.tracingFds ++ rets.map Prod.snd ++ ups.map Prod.snd,
        uprobesIdsToFunction := s1.uprobesIdsToFunction
          ++ ups.map (fun p => (env.streamId p.2, f))
          ++ rets.map (fun p => (env.streamId p.2, f)),
        committedProbePairs := s1.committedProbePairs
          ++ List.zipWith (fun u r => (f, u.1, r.2, u.2)) ups rets }
    cpus.foldl (fun a cpu => redirectUprobesOnCpu ups a cpu) (acc.1, s2)

/-- The function loop of lines 173-262, carrying
`uprobes_ring_buffer_fds_per_cpu` across functions. -/
def OpenUserSpaceProbes (env : PerfEnv) (cpus : List Nat)
    (functions : List Nat) (s : SetupState) : SetupState :=
  (functions.foldl (fun acc f => ProcessInstrumentedFunction env cpus f acc)
    ([], s)).2

/-! ### The whole opening phase -/

/-- `all_cpus` (lines 128-131). -/
def allCpus (cfg : TracerConfig) : List Nat := List.range cfg.numCores

/-- `cpuset_cpus` (lines 136-140): the cpuset read for the traced pid, falling
back to `all_cpus` when it cannot be read. -/
def cpusetCpus (cfg : TracerConfig) (env : PerfEnv) : List Nat :=
  if env.cpusetCpus.isEmpty then allCpus cfg else env.cpusetCpus

/-- Lines 145-158: the context-switch sources, if requested. -/
def phaseContextSwitches (cfg : TracerConfig) (env : PerfEnv)
    (s : SetupState) : SetupState :=
  if cfg.traceContextSwitches then
    (allCpus cfg).foldl (openContextSwitchOnCpu env) s
  else s

/-- Lines 173-262: the instrumented-function probes, if requested. -/
def phaseUprobes (cfg : TracerConfig) (env : PerfEnv) (s : SetupState) :
    SetupState :=
  if cfg.traceInstrumentedFunctions then
    OpenUserSpaceProbes env (cpusetCpus cfg env) cfg.instrumentedFunctions s
  else s

/-- Lines 264-275: the mmap/task sources (unconditional). -/
def phaseMmapTask (cfg : TracerConfig) (env : PerfEnv) (s : SetupState) :
    SetupState :=
  (cpusetCpus cfg env).foldl (openMmapTaskOnCpu env) s

/-- Lines 277-290: the sampling sources, if requested. -/
def phaseSampling (cfg : TracerConfig) (env : PerfEnv) (s : SetupState) :
    SetupState :=
  if cfg.traceCallstacks then
    (cpusetCpus cfg env).foldl (openSamplingOnCpu env) s
  else s

/-- Lines 292-296: the GPU tracepoints, if the `trace_gpu_driver_events`
flag is set, recording failure in `gpu_event_open_errors`. -/
def phaseGpu (cfg : TracerConfig) (env : PerfEnv) (s : SetupState) :
    SetupState :=
  if cfg.traceGpuDriverEvents then
    { (OpenGpuTracepoints env (allCpus cfg) s).2 with
      gpuEventOpenErrors := !(OpenGpuTracepoints env (allCpus cfg) s).1 }
  else s

/-- The opening phase of `TracerThread::Run` (lines 119-313), in source
order (`Reset()` is the initial state; `perf_event_enable` then walks
`tracingFds` in list order, lines 310-313). -/
def RunSetup (cfg : TracerConfig) (env : PerfEnv) : SetupState :=
  phaseGpu cfg env
    (phaseSampling cfg env
      (phaseMmapTask cfg env
        (phaseUprobes cfg env
          (InitGpuTracepointEventProcessor env
            (phaseContextSwitches cfg env SetupState.initial)))))

/-- The `SampleDispatchCtx` a run's dispatcher uses: the fd sets and stream-id
map produced by the opening phase. -/
def SetupState.sampleCtx (s : SetupState) (tracedPid emptySampleSize : Nat) :
    SampleDispatchCtx :=
  { tracedPid := tracedPid, uprobesFds := s.uprobesFds,
    gpuTracingFds := s.gpuTracingFds,
    uprobesIdsToFunction := s.uprobesIdsToFunction,
    emptySampleSize := emptySampleSize }

/-! ### Invariants of the opening phase -/

/-- Every fd ever returned by a successful open is committed to
`tracing_fds_`, already closed, or leaked (left open and untracked). -/
def FdsAccounted (s : SetupState) : Prop :=
  ∀ fd ∈ s.openedFds,
    fd ∈ s.tracingFds ∨ fd ∈ s.closedFds ∨ fd ∈ s.leakedFds

/-- Every committed probe pair has its uretprobe fd strictly before its
uprobe fd in `tracing_fds_`, which is the order fds are enabled in. -/
def PairsOrdered (s : SetupState) : Prop :=
  ∀ p ∈ s.committedProbePairs, ∃ l1 l2 l3,
    s.tracingFds = l1 ++ p.2.2.1 :: (l2 ++ p.2.2.2 :: l3)

/-- Relation between the states before and after one step (or one whole
phase) of the opening sequence that touches neither the GPU tracepoint fd set
nor the GPU event processor: it transports the fd-accounting and
probe-pair-ordering invariants. -/
def SetupExtends (s t : SetupState) : Prop :=
  t.gpuTracingFds = s.gpuTracingFds ∧
  t.gpuEventProcessor = s.gpuEventProcessor ∧
  (FdsAccounted s → FdsAccounted t) ∧
  (PairsOrdered s → PairsOrdered t)

/-- The per-function probe open loop only allocates fds: every other piece of
`TracerThread` state is untouched. -/
def OnlyFdAllocChanged (s t : SetupState) : Prop :=
  t.tracingFds = s.tracingFds ∧ t.closedFds = s.closedFds ∧
  t.uprobesFds = s.uprobesFds ∧ t.gpuTracingFds = s.gpuTracingFds ∧
  t.ringBuffers = s.ringBuffers ∧
  t.uprobesIdsToFunction = s.uprobesIdsToFunction ∧
  t.leakedFds = s.leakedFds ∧ t.gpuEventProcessor = s.gpuEventProcessor ∧
  t.committedProbePairs = s.committedProbePairs

/-- The ring-buffer consolidation loop only appends to `ring_buffers_` and
`uprobes_fds_`: every other piece of `TracerThread` state is untouched. -/
def RedirectUntouched (s t : SetupState) : Prop :=
  t.openedFds = s.openedFds ∧ t.tracingFds = s.tracingFds ∧
  t.closedFds = s.closedFds ∧ t.gpuTracingFds = s.gpuTracingFds ∧
  t.uprobesIdsToFunction = s.uprobesIdsToFunction ∧
  t.leakedFds = s.leakedFds ∧ t.gpuEventProcessor = s.gpuEventProcessor ∧
  t.committedProbePairs = s.committedProbePairs

/-- How one GPU-tracepoint opening step relates the local accumulators and
the state before and after: the local `gpu_tracing_fds` vector grows by
exactly the newly opened fds, the local `ring_buffers` vector by a subset of
them (by all of them when the step succeeded), and no `TracerThread` member
other than the fd allocator is touched. -/
def GpuLoopStep (g r : List Fd) (s : SetupState)
    (res : Bool × List Fd × List Fd × SetupState) : Prop :=
  ∃ newFds newRbs : List Fd,
    res.2.1 = g ++ newFds ∧
    res.2.2.1 = r ++ newRbs ∧
    res.2.2.2.openedFds = s.openedFds ++ newFds ∧
    res.2.2.2.tracingFds = s.tracingFds ∧
    res.2.2.2.closedFds = s.closedFds ∧
    res.2.2.2.gpuTracingFds = s.gpuTracingFds ∧
    res.2.2.2.uprobesFds = s.uprobesFds ∧
    res.2.2.2.ringBuffers = s.ringBuffers ∧
    res.2.2.2.uprobesIdsToFunction = s.uprobesIdsToFunction ∧
    res.2.2.2.leakedFds = s.leakedFds ∧
    res.2.2.2.gpuEventProcessor = s.gpuEventProcessor ∧
    res.2.2.2.committedProbePairs = s.committedProbePairs ∧
    (res.1 = true → newRbs = newFds)

/-! ## Concrete environments and configurations used to instantiate the
theorems on closed inputs -/

/-- An environment in which every open, every mmap and every tracepoint-id
resolution succeeds, with a one-cpu cpuset. -/
def allOkEnv : PerfEnv :=
  { cpusetCpus := [0],
    contextSwitchOpenOk := fun _ => true, contextSwitchMapOk := fun _ => true,
    mmapTaskOpenOk := fun _ => true, mmapTaskMapOk := fun _ => true,
    sampleOpenOk := fun _ => true, sampleMapOk := fun _ => true,
    uprobesOpenOk := fun _ _ => true, uretprobesOpenOk := fun _ _ => true,
    tracepointIdOk := fun _ => true, gpuPerfOpenOk := fun _ _ => true,
    gpuMapOk := fun _ _ => true, streamId := fun fd => fd * 10 }

/-- A configuration tracing everything on one core, with two instrumented
functions. -/
def fullDemoConfig : TracerConfig :=
  { numCores := 1, traceContextSwitches := true,
    traceInstrumentedFunctions := true, traceCallstacks := true,
    traceGpuDriverEvents := true, instrumentedFunctions := [0, 1] }

/-- An environment in which the context-switch perf_event_open succeeds but
mapping its ring buffer fails. -/
def ctxSwitchMapFailEnv : PerfEnv :=
  { allOkEnv with contextSwitchMapOk := fun _ => false }

/-- A configuration tracing only context switches on one core. -/
def ctxSwitchOnlyConfig : TracerConfig :=
  { numCores := 1, traceContextSwitches := true,
    traceInstrumentedFunctions := false, traceCallstacks := false,
    traceGpuDriverEvents := false, instrumentedFunctions := [] }

/-- An environment in which the `amdgpu_sched_run_job` tracepoint cannot be
opened on cpu 1 (spec scenario "Partial GPU open"). -/
def gpuSchedRunJobFailEnv : PerfEnv :=
  { allOkEnv with gpuPerfOpenOk := fun tp cpu => !(tp == 1 && cpu == 1) }

/-- An environment in which every uretprobe open fails (the uprobe opens
succeed). -/
def uretprobeFailEnv : PerfEnv :=
  { allOkEnv with uretprobesOpenOk := fun _ _ => false }

/-- A two-core configuration tracing only GPU driver events. -/
def gpuOnlyConfig : TracerConfig :=
  { numCores := 2, traceContextSwitches := false,
    traceInstrumentedFunctions := false, traceCallstacks := false,
    traceGpuDriverEvents := true, instrumentedFunctions := [] }

/-! ## Theorems -/

/-- C5: a `PERF_RECORD_SAMPLE` whose originating fd is not a GPU tracepoint
fd is skipped when its pid differs from the traced pid (tail advanced via
`SkipRecord`, nothing materialized or deferred, no listener call, no stats
counter incremented), while a sample from a GPU tracepoint fd is always
consumed and pushed to the GPU correlator regardless of pid. -/
theorem sample_pid_filter_non_gpu_skipped_gpu_kept
    (ctx : SampleDispatchCtx) (r : SampleRecord) :
    (r.fd ∉ ctx.gpuTracingFds → r.pid ≠ ctx.tracedPid →
      ProcessSampleEvent ctx r = (.skipRecord, none))
    ∧ (r.fd ∈ ctx.gpuTracingFds → r.fd ∉ ctx.uprobesFds →
      ProcessSampleEvent ctx r = (.pushGpuEvent r.fd, some .gpuEvents)) := by
  constructor
  · intro hg hp
    simp [ProcessSampleEvent, hg, hp]
  · intro hg hu
    simp [ProcessSampleEvent, hg, hu]

/-- C5 witness. -/
theorem sample_pid_filter_non_gpu_skipped_gpu_kept_witness :
    ProcessSampleEvent
      { tracedPid := 100, uprobesFds := [7], gpuTracingFds := [9],
        uprobesIdsToFunction := [], emptySampleSize := 72 }
      { fd := 8, headerSize := 80, pid := 55, streamId := 0 }
      = (.skipRecord, none)
    ∧ ProcessSampleEvent
      { tracedPid := 100, uprobesFds := [7], gpuTracingFds := [9],
        uprobesIdsToFunction := [], emptySampleSize := 72 }
      { fd := 9, headerSize := 80, pid := 55, streamId := 0 }
      = (.pushGpuEvent 9, some .gpuEvents) :=
  ⟨(sample_pid_filter_non_gpu_skipped_gpu_kept _ _).1 (by decide) (by decide),
   (sample_pid_filter_non_gpu_skipped_gpu_kept _ _).2 (by decide) (by decide)⟩

/-- C6 counterexample: a record from a uprobes ring-buffer root fd whose
`header.size` equals `sizeof(perf_event_empty_sample)` — a return probe by
the claim's classification — produces no deferred `UretprobesPerfEvent` when
its pid is not the traced pid: the record is skipped, contradicting the claim
as stated (which asserts the production unconditionally). -/
theorem probe_sample_with_foreign_pid_not_deferred :
    ProcessSampleEvent
      { tracedPid := 100, uprobesFds := [7], gpuTracingFds := [9],
        uprobesIdsToFunction := [(1, 0)], emptySampleSize := 72 }
      { fd := 7, headerSize := 72, pid := 999, streamId := 1 }
      = (.skipRecord, none) := by decide

/-- C6 (amended): a sample from a uprobes ring-buffer root fd carrying the
traced pid is classified as a return probe if and only if `header.size`
equals `sizeof(perf_event_empty_sample)` and as an entry probe otherwise; a
return probe is consumed into a deferred `UretprobesPerfEvent`, an entry
probe into a deferred `UprobesWithStackPerfEvent`, each with the function
resolved through `uprobes_ids_to_function_` from the record's stream id and
tagged with the origin fd.  (As the counterexample shows, a probe record of a
foreign pid is skipped instead.) -/
theorem probe_sample_classification_by_size
    (ctx : SampleDispatchCtx) (r : SampleRecord)
    (hu : r.fd ∈ ctx.uprobesFds) (hg : r.fd ∉ ctx.gpuTracingFds)
    (hp : r.pid = ctx.tracedPid) :
    (r.headerSize = ctx.emptySampleSize →
      ProcessSampleEvent ctx r =
        (.deferUretprobes (ctx.uprobesIdsToFunction.lookup r.streamId) r.fd,
         some .uprobes))
    ∧ (r.headerSize ≠ ctx.emptySampleSize →
      ProcessSampleEvent ctx r =
        (.deferUprobesWithStack
          (ctx.uprobesIdsToFunction.lookup r.streamId) r.fd,
         some .uprobes)) := by
  constructor
  · intro hs
    simp [ProcessSampleEvent, hu, hg, hp, hs]
  · intro hs
    simp [ProcessSampleEvent, hu, hg, hp, hs]

/-- C6 witness. -/
theorem probe_sample_classification_by_size_witness :
    ProcessSampleEvent
      { tracedPid := 100, uprobesFds := [7], gpuTracingFds := [9],
        uprobesIdsToFunction := [(1, 4)], emptySampleSize := 72 }
      { fd := 7, headerSize := 72, pid := 100, streamId := 1 }
      = (.deferUretprobes (some 4) 7, some .uprobes)
    ∧ ProcessSampleEvent
      { tracedPid := 100, uprobesFds := [7], gpuTracingFds := [9],
        uprobesIdsToFunction := [(1, 4)], emptySampleSize := 72 }
      { fd := 7, headerSize := 200, pid := 100, streamId := 1 }
      = (.deferUprobesWithStack (some 4) 7, some .uprobes) :=
  ⟨(probe_sample_classification_by_size _ _ (by decide) (by decide)
      (by decide)).1 (by decide),
   (probe_sample_classification_by_size _ _ (by decide) (by decide)
      (by decide)).2 (by decide)⟩

/-- C7: a `PERF_RECORD_SWITCH_CPU_WIDE` record yields exactly one
`OnContextSwitchOut`/`OnContextSwitchIn` listener call carrying the record's
tid, cpu and timestamp when the tid is nonzero, and no listener call when the
tid is 0 (idle); dispatching the two switch-out records {tid=100, cpu=0,
ts=10} and {tid=0, cpu=1, ts=20} yields exactly one
`on_context_switch_out(100, 0, 10)` call. -/
theorem context_switch_cpu_wide_delivery
    (r : SwitchRecord) (hcpu : r.cpu < 65536) :
    (r.tid ≠ 0 → (ProcessContextSwitchCpuWideEvent r).1 =
      [if r.isSwitchOut then .onContextSwitchOut r.tid r.cpu r.time
       else .onContextSwitchIn r.tid r.cpu r.time])
    ∧ (r.tid = 0 → (ProcessContextSwitchCpuWideEvent r).1 = [])
    ∧ DispatchSwitchCpuWideRecords
        [{ tid := 100, cpu := 0, time := 10, isSwitchOut := true },
         { tid := 0, cpu := 1, time := 20, isSwitchOut := true }]
      = [.onContextSwitchOut 100 0 10] := by
  refine ⟨fun h => ?_, fun h => ?_, by decide⟩
  · simp [ProcessContextSwitchCpuWideEvent, h, Nat.mod_eq_of_lt hcpu]
  · simp [ProcessContextSwitchCpuWideEvent, h]

/-- C7 witness. -/
theorem context_switch_cpu_wide_delivery_witness :
    (ProcessContextSwitchCpuWideEvent
      { tid := 100, cpu := 0, time := 10, isSwitchOut := true }).1
      = [.onContextSwitchOut 100 0 10]
    ∧ (ProcessContextSwitchCpuWideEvent
      { tid := 0, cpu := 1, time := 20, isSwitchOut := true }).1 = [] :=
  ⟨(context_switch_cpu_wide_delivery _ (by decide)).1 (by decide),
   (context_switch_cpu_wide_delivery _ (by decide)).2.1 (by decide)⟩

lemma sum_bumpAssoc (l : List (Nat × Nat)) (b n : Nat) :
    ((bumpAssoc l b n).map Prod.snd).sum = (l.map Prod.snd).sum + n := by
  induction l with
  | nil => simp [bumpAssoc]
  | cons hd tl ih =>
      obtain ⟨k, v⟩ := hd
      by_cases hk : k = b <;> simp [bumpAssoc, hk, ih] <;> omega

lemma lost_invariant_step (s : EventStats) (op : StatsOp)
    (h : s.lostCount = sumLostPerBuffer s) :
    (applyStatsOp s op).lostCount = sumLostPerBuffer (applyStatsOp s op) := by
  cases op <;>
    simp [applyStatsOp, ProcessLostEvent, sumLostPerBuffer,
      EventStats.emptied, sum_bumpAssoc, h]

/-- C8: after any sequence of stats operations (per-kind increments, lost
records accumulated by `ProcessLostEvent` into both the total and the
per-buffer entry, window resets clearing both together), `stats_.lost_count`
equals the sum over ring buffers of `stats_.lost_count_per_buffer` — in
particular at every stats window. -/
theorem lost_count_equals_sum_per_buffer (ops : List StatsOp) :
    (runStats ops).lostCount = sumLostPerBuffer (runStats ops) := by
  suffices h : ∀ s : EventStats, s.lostCount = sumLostPerBuffer s →
      (ops.foldl applyStatsOp s).lostCount =
        sumLostPerBuffer (ops.foldl applyStatsOp s) by
    exact h _ (by simp [EventStats.emptied, sumLostPerBuffer])
  induction ops with
  | nil => intro s hs; simpa
  | cons op rest ih =>
      intro s hs
      exact ih _ (lost_invariant_step s op hs)

lemma length_le_of_getElem?_append {α} {A B : List α} {i : Nat} {a : α}
    (h : (A ++ B)[i]? = some a) (ha : a ∉ A) : A.length ≤ i := by
  by_contra hi
  push_neg at hi
  rw [List.getElem?_append_left hi] at h
  exact ha (List.getElem?_mem h)

lemma lt_length_of_getElem?_append {α} {A B : List α} {i : Nat} {a : α}
    (h : (A ++ B)[i]? = some a) (hb : a ∉ B) : i < A.length := by
  by_contra hi
  push_neg at hi
  rw [List.getElem?_append_right hi] at h
  exact hb (List.getElem?_mem h)

lemma closeFd_injective : Function.Injective ShutdownAction.closeFd := by
  intro a b h
  cases h
  rfl

/-- C9: the shutdown sequence performs, in this order: set
`stop_deferred_thread_`, join the deferred worker, `ProcessAllEvents`, then
disable every fd of `tracing_fds_`, then destroy (unmap) every ring buffer,
then close every fd of `tracing_fds_`.  Hence every disable precedes every
unmap, every unmap precedes every close (so each ring buffer is unmapped
before its root fd is closed), and each fd of the tracked set — which has no
duplicates, every fd being committed once — is closed exactly once. -/
theorem shutdown_sequence_order (t r : List Fd) :
    ((ShutdownTrace t r)[0]? = some ShutdownAction.setStopDeferredThread
      ∧ (ShutdownTrace t r)[1]? = some ShutdownAction.joinDeferredThread
      ∧ (ShutdownTrace t r)[2]? = some ShutdownAction.processAllEvents)
    ∧ (∀ (i j : Nat) (f b : Fd),
        (ShutdownTrace t r)[i]? = some (ShutdownAction.disableFd f) →
        (ShutdownTrace t r)[j]? = some (ShutdownAction.unmapRingBuffer b) →
        i < j)
    ∧ (∀ (i j : Nat) (b f : Fd),
        (ShutdownTrace t r)[i]? = some (ShutdownAction.unmapRingBuffer b) →
        (ShutdownTrace t r)[j]? = some (ShutdownAction.closeFd f) → i < j)
    ∧ (∀ f : Fd,
        (ShutdownTrace t r).count (ShutdownAction.closeFd f) = t.count f)
    ∧ (∀ f : Fd, t.Nodup → f ∈ t →
        (ShutdownTrace t r).count (ShutdownAction.closeFd f) = 1) := by
  have hcount : ∀ f : Fd,
      (ShutdownTrace t r).count (ShutdownAction.closeFd f) = t.count f := by
    intro f
    have h1 : ([ShutdownAction.setStopDeferredThread,
        ShutdownAction.joinDeferredThread,
        ShutdownAction.processAllEvents] : List ShutdownAction).count
          (ShutdownAction.closeFd f) = 0 :=
      List.count_eq_zero.mpr (by simp)
    have h2 : (t.map ShutdownAction.disableFd).count
        (ShutdownAction.closeFd f) = 0 :=
      List.count_eq_zero.mpr (by simp)
    have h3 : (r.map ShutdownAction.unmapRingBuffer).count
        (ShutdownAction.closeFd f) = 0 :=
      List.count_eq_zero.mpr (by simp)
    have h4 : (t.map ShutdownAction.closeFd).count
        (ShutdownAction.closeFd f) = t.count f :=
      List.count_map_of_injective t _ closeFd_injective f
    simp [ShutdownTrace, List.count_append, h1, h2, h3, h4]
  have hsplit1 : ShutdownTrace t r =
      ([ShutdownAction.setStopDeferredThread,
        ShutdownAction.joinDeferredThread, ShutdownAction.processAllEvents]
        ++ t.map ShutdownAction.disableFd)
      ++ (r.map ShutdownAction.unmapRingBuffer
        ++ t.map ShutdownAction.closeFd) := by
    simp [ShutdownTrace]
  have hsplit2 : ShutdownTrace t r =
      (([ShutdownAction.setStopDeferredThread,
        ShutdownAction.joinDeferredThread, ShutdownAction.processAllEvents]
        ++ t.map ShutdownAction.disableFd)
        ++ r.map ShutdownAction.unmapRingBuffer)
      ++ t.map ShutdownAction.closeFd := by
    simp [ShutdownTrace]
  refine ⟨⟨?_, ?_, ?_⟩, ?_, ?_, hcount, ?_⟩
  · simp [ShutdownTrace]
  · simp [ShutdownTrace]
  · simp [ShutdownTrace]
  · intro i j f b hi hj
    rw [hsplit1] at hi hj
    have h1 := lt_length_of_getElem?_append hi (by simp)
    have h2 := length_le_of_getElem?_append hj (by simp)
    omega
  · intro i j b f hi hj
    rw [hsplit2] at hi hj
    have h1 := lt_length_of_getElem?_append hi (by simp)
    have h2 := length_le_of_getElem?_append hj (by simp)
    omega
  · intro f hnd hf
    rw [hcount f]
    exact List.count_eq_one_of_mem hnd hf

/-- C9 witness. -/
theorem shutdown_sequence_order_witness :
    (ShutdownTrace [3, 4] [3]).count (ShutdownAction.closeFd 3) = 1
    ∧ (5 : Nat) < 6 :=
  ⟨(shutdown_sequence_order [3, 4] [3]).2.2.2.2 3 (by decide) (by decide),
   (shutdown_sequence_order [3, 4] [3]).2.2.1 5 6 3 3 (by decide) (by decide)⟩

/-! ### GPU tracepoint phase lemmas -/

lemma GpuLoopStep.trans {g r : List Fd} {s : SetupState}
    {t res : Bool × List Fd × List Fd × SetupState}
    (h1 : GpuLoopStep g r s t)
    (h2 : GpuLoopStep t.2.1 t.2.2.1 t.2.2.2 res)
    (hb : t.1 = true) :
    GpuLoopStep g r s res := by
  obtain ⟨n1, m1, hg1, hr1, ho1, ht1, hc1, hgp1, hu1, hrb1, hid1, hl1, hp1,
    hpp1, hok1⟩ := h1
  obtain ⟨n2, m2, hg2, hr2, ho2, ht2, hc2, hgp2, hu2, hrb2, hid2, hl2, hp2,
    hpp2, hok2⟩ := h2
  refine ⟨n1 ++ n2, m1 ++ m2, ?_, ?_, ?_, ?_, ?_, ?_, ?_, ?_, ?_, ?_, ?_, ?_,
    ?_⟩
  · rw [hg2, hg1, List.append_assoc]
  · rw [hr2, hr1, List.append_assoc]
  · rw [ho2, ho1, List.append_assoc]
  · rw [ht2, ht1]
  · rw [hc2, hc1]
  · rw [hgp2, hgp1]
  · rw [hu2, hu1]
  · rw [hrb2, hrb1]
  · rw [hid2, hid1]
  · rw [hl2, hl1]
  · rw [hp2, hp1]
  · rw [hpp2, hpp1]
  · intro hres
    rw [hok1 hb, hok2 hres]

lemma GpuLoopStep.castFalse {g r : List Fd} {s : SetupState}
    {t : Bool × List Fd × List Fd × SetupState}
    (h : GpuLoopStep g r s t) :
    GpuLoopStep g r s (false, t.2) := by
  obtain ⟨n, m, hg, hr, ho, ht, hc, hgp, hu, hrb, hid, hl, hp, hpp, _⟩ := h
  exact ⟨n, m, hg, hr, ho, ht, hc, hgp, hu, hrb, hid, hl, hp, hpp,
    fun h => by simp at h⟩

lemma gpuStep_openRingBuffer (env : PerfEnv) (tp cpu : Nat) (g r : List Fd)
    (s : SetupState) :
    GpuLoopStep g r s (OpenRingBufferForGpuTracepoint env tp cpu g r s) := by
  unfold OpenRingBufferForGpuTracepoint tracepointEventOpen openFd
  by_cases h : env.tracepointIdOk tp && env.gpuPerfOpenOk tp cpu
  · by_cases hm : env.gpuMapOk tp cpu
    · exact ⟨[s.nextFd], [s.nextFd], by simp [h, hm], by simp [h, hm],
        by simp [h, hm], by simp [h, hm], by simp [h, hm], by simp [h, hm],
        by simp [h, hm], by simp [h, hm], by simp [h, hm], by simp [h, hm],
        by simp [h, hm], by simp [h, hm], fun _ => rfl⟩
    · exact ⟨[s.nextFd], [], by simp [h, hm], by simp [h, hm],
        by simp [h, hm], by simp [h, hm], by simp [h, hm], by simp [h, hm],
        by simp [h, hm], by simp [h, hm], by simp [h, hm], by simp [h, hm],
        by simp [h, hm], by simp [h, hm], by simp [h, hm]⟩
  · exact ⟨[], [], by simp [h], by simp [h], by simp [h], by simp [h],
      by simp [h], by simp [h], by simp [h], by simp [h], by simp [h],
      by simp [h], by simp [h], by simp [h], by simp [h]⟩

lemma gpuStep_forCpu (env : PerfEnv) (cpu : Nat) (g r : List Fd)
    (s : SetupState) :
    GpuLoopStep g r s (openGpuTracepointsForCpu env cpu g r s) := by
  unfold openGpuTracepointsForCpu
  set t0 := OpenRingBufferForGpuTracepoint env 0 cpu g r s with ht0
  by_cases h0 : t0.1
  · simp only [h0, if_true]
    set t1 := OpenRingBufferForGpuTracepoint env 1 cpu t0.2.1 t0.2.2.1 t0.2.2.2
      with ht1
    by_cases h1 : t1.1
    · simp only [h1, if_true]
      exact ((gpuStep_openRingBuffer env 0 cpu g r s).trans
        (gpuStep_openRingBuffer env 1 cpu _ _ _) h0).trans
        (gpuStep_openRingBuffer env 2 cpu _ _ _) h1
    · simp only [h1, if_false, Bool.false_eq_true]
      exact ((gpuStep_openRingBuffer env 0 cpu g r s).trans
        (gpuStep_openRingBuffer env 1 cpu _ _ _) h0).castFalse
  · simp only [h0, if_false, Bool.false_eq_true]
    exact (gpuStep_openRingBuffer env 0 cpu g r s).castFalse

lemma gpuStep_loop (env : PerfEnv) (cpus : List Nat) :
    ∀ (g r : List Fd) (s : SetupState),
      GpuLoopStep g r s (openGpuTracepointsLoop env cpus g r s) := by
  induction cpus with
  | nil =>
      intro g r s
      exact ⟨[], [], by simp [openGpuTracepointsLoop],
        by simp [openGpuTracepointsLoop], by simp [openGpuTracepointsLoop],
        rfl, rfl, rfl, rfl, rfl, rfl, rfl, rfl, rfl, fun _ => rfl⟩
  | cons cpu rest ih =>
      intro g r s
      unfold openGpuTracepointsLoop
      set t := openGpuTracepointsForCpu env cpu g r s with ht
      by_cases hok : t.1
      · simp only [hok, if_true]
        exact (gpuStep_forCpu env cpu g r s).trans (ih _ _ _) hok
      · simp only [hok, if_false, Bool.false_eq_true]
        exact (gpuStep_forCpu env cpu g r s).castFalse

lemma openRingBuffer_ok_tpId (env : PerfEnv) (tp cpu : Nat) (g r : List Fd)
    (s : SetupState)
    (h : (OpenRingBufferForGpuTracepoint env tp cpu g r s).1 = true) :
    env.tracepointIdOk tp = true := by
  unfold OpenRingBufferForGpuTracepoint tracepointEventOpen at h
  by_cases hc : env.tracepointIdOk tp && env.gpuPerfOpenOk tp cpu
  · simp only [Bool.and_eq_true] at hc
    exact hc.1
  · simp [hc] at h

lemma forCpu_ok_tpIds (env : PerfEnv) (cpu : Nat) (g r : List Fd)
    (s : SetupState)
    (h : (openGpuTracepointsForCpu env cpu g r s).1 = true) :
    env.tracepointIdOk 0 = true ∧ env.tracepointIdOk 1 = true ∧
      env.tracepointIdOk 2 = true := by
  unfold openGpuTracepointsForCpu at h
  set t0 := OpenRingBufferForGpuTracepoint env 0 cpu g r s with ht0
  by_cases h0 : t0.1
  · simp only [h0, if_true] at h
    set t1 := OpenRingBufferForGpuTracepoint env 1 cpu t0.2.1 t0.2.2.1 t0.2.2.2
      with ht1
    by_cases h1 : t1.1
    · simp only [h1, if_true] at h
      exact ⟨openRingBuffer_ok_tpId env 0 cpu _ _ _ (ht0 ▸ h0),
        openRingBuffer_ok_tpId env 1 cpu _ _ _ (ht1 ▸ h1),
        openRingBuffer_ok_tpId env 2 cpu _ _ _ h⟩
    · simp [h1] at h
  · simp [h0] at h

lemma loop_ok_tpIds (env : PerfEnv) (cpu : Nat) (rest : List Nat)
    (g r : List Fd) (s : SetupState)
    (h : (openGpuTracepointsLoop env (cpu :: rest) g r s).1 = true) :
    env.tracepointIdOk 0 = true ∧ env.tracepointIdOk 1 = true ∧
      env.tracepointIdOk 2 = true := by
  unfold openGpuTracepointsLoop at h
  set t := openGpuTracepointsForCpu env cpu g r s with ht
  by_cases hok : t.1
  · exact forCpu_ok_tpIds env cpu g r s (ht ▸ hok)
  · simp [hok] at h

/-! ### Invariant transport through the opening phases -/

lemma fdsAccounted_extend {s t : SetupState} (new : List Fd)
    (ho : t.openedFds = s.openedFds ++ new)
    (htr : ∃ u, t.tracingFds = s.tracingFds ++ u)
    (hcl : ∃ u, t.closedFds = s.closedFds ++ u)
    (hlk : ∃ u, t.leakedFds = s.leakedFds ++ u)
    (hnew : ∀ fd ∈ new,
      fd ∈ t.tracingFds ∨ fd ∈ t.closedFds ∨ fd ∈ t.leakedFds)
    (hacc : FdsAccounted s) : FdsAccounted t := by
  intro fd hfd
  rw [ho] at hfd
  rcases List.mem_append.mp hfd with h | h
  · obtain ⟨u1, h1⟩ := htr
    obtain ⟨u2, h2⟩ := hcl
    obtain ⟨u3, h3⟩ := hlk
    rcases hacc fd h with hh | hh | hh
    · exact Or.inl (by rw [h1]; exact List.mem_append_left _ hh)
    · exact Or.inr (Or.inl (by rw [h2]; exact List.mem_append_left _ hh))
    · exact Or.inr (Or.inr (by rw [h3]; exact List.mem_append_left _ hh))
  · exact hnew fd h

lemma pairsOrdered_extend {s t : SetupState} (u : List Fd)
    (htr : t.tracingFds = s.tracingFds ++ u)
    (hpp : t.committedProbePairs = s.committedProbePairs)
    (hpo : PairsOrdered s) : PairsOrdered t := by
  intro p hp
  rw [hpp] at hp
  obtain ⟨l1, l2, l3, hl⟩ := hpo p hp
  refine ⟨l1, l2, l3 ++ u, ?_⟩
  rw [htr, hl]
  simp

lemma setupExtends_refl (s : SetupState) : SetupExtends s s :=
  ⟨rfl, rfl, id, id⟩

lemma setupExtends_trans {a b c : SetupState}
    (h1 : SetupExtends a b) (h2 : SetupExtends b c) : SetupExtends a c :=
  ⟨h2.1.trans h1.1, h2.2.1.trans h1.2.1,
   fun h => h2.2.2.1 (h1.2.2.1 h), fun h => h2.2.2.2 (h1.2.2.2 h)⟩

lemma setupExtends_foldl {β : Type} (f : SetupState → β → SetupState)
    (hf : ∀ s x, SetupExtends s (f s x)) (l : List β) :
    ∀ s, SetupExtends s (l.foldl f s) := by
  induction l with
  | nil => intro s; exact setupExtends_refl s
  | cons x xs ih =>
      intro s
      exact setupExtends_trans (hf s x) (ih (f s x))

lemma extends_openSimpleSourceOnCpu (openOk mapOk : Bool) (s : SetupState) :
    SetupExtends s (openSimpleSourceOnCpu openOk mapOk s) := by
  unfold openSimpleSourceOnCpu openFd
  by_cases h1 : openOk
  · by_cases h2 : mapOk
    · refine ⟨by simp [h1, h2], by simp [h1, h2], ?_, ?_⟩
      · intro hacc
        refine fdsAccounted_extend ([s.nextFd]) (by simp [h1, h2])
          ⟨[s.nextFd], by simp [h1, h2]⟩ ⟨[], by simp [h1, h2]⟩
          ⟨[], by simp [h1, h2]⟩ ?_ hacc
        intro fd hfd
        simp at hfd
        subst hfd
        exact Or.inl (by simp [h1, h2])
      · intro hpo
        exact pairsOrdered_extend ([s.nextFd]) (by simp [h1, h2])
          (by simp [h1, h2]) hpo
    · refine ⟨by simp [h1, h2], by simp [h1, h2], ?_, ?_⟩
      · intro hacc
        refine fdsAccounted_extend ([s.nextFd]) (by simp [h1, h2])
          ⟨[], by simp [h1, h2]⟩ ⟨[], by simp [h1, h2]⟩
          ⟨[s.nextFd], by simp [h1, h2]⟩ ?_ hacc
        intro fd hfd
        simp at hfd
        subst hfd
        exact Or.inr (Or.inr (by simp [h1, h2]))
      · intro hpo
        exact pairsOrdered_extend ([]) (by simp [h1, h2])
          (by simp [h1, h2]) hpo
  · refine ⟨by simp [h1], by simp [h1], ?_, ?_⟩
    · intro hacc
      refine fdsAccounted_extend ([]) (by simp [h1])
        ⟨[], by simp [h1]⟩ ⟨[], by simp [h1]⟩ ⟨[], by simp [h1]⟩
        (by simp) hacc
    · intro hpo
      exact pairsOrdered_extend ([]) (by simp [h1]) (by simp [h1]) hpo

lemma extends_phaseContextSwitches (cfg : TracerConfig) (env : PerfEnv)
    (s : SetupState) : SetupExtends s (phaseContextSwitches cfg env s) := by
  unfold phaseContextSwitches
  by_cases h : cfg.traceContextSwitches
  · simp only [h, if_true]
    exact setupExtends_foldl _
      (fun s _ => extends_openSimpleSourceOnCpu _ _ s) _ s
  · simp only [h, if_false]
    exact setupExtends_refl s

lemma extends_phaseMmapTask (cfg : TracerConfig) (env : PerfEnv)
    (s : SetupState) : SetupExtends s (phaseMmapTask cfg env s) :=
  setupExtends_foldl _ (fun s _ => extends_openSimpleSourceOnCpu _ _ s) _ s

lemma extends_phaseSampling (cfg : TracerConfig) (env : PerfEnv)
    (s : SetupState) : SetupExtends s (phaseSampling cfg env s) := by
  unfold phaseSampling
  by_cases h : cfg.traceCallstacks
  · simp only [h, if_true]
    exact setupExtends_foldl _
      (fun s _ => extends_openSimpleSourceOnCpu _ _ s) _ s
  · simp only [h, if_false]
    exact setupExtends_refl s

lemma initGpu_preserves (env : PerfEnv) (s : SetupState) :
    (InitGpuTracepointEventProcessor env s).gpuTracingFds = s.gpuTracingFds ∧
    (FdsAccounted s →
      FdsAccounted (InitGpuTracepointEventProcessor env s)) ∧
    (PairsOrdered s → PairsOrdered (InitGpuTracepointEventProcessor env s)) ∧
    (InitGpuTracepointEventProcessor env s).gpuEventProcessor =
      (s.gpuEventProcessor ||
        (env.tracepointIdOk 0 && env.tracepointIdOk 1 &&
          env.tracepointIdOk 2)) := by
  unfold InitGpuTracepointEventProcessor
  by_cases h : env.tracepointIdOk 0 && env.tracepointIdOk 1 &&
      env.tracepointIdOk 2
  · simp only [h, if_true]
    exact ⟨by trivial, fun hacc => hacc, fun hpo => hpo, by simp [h]⟩
  · have hx : (env.tracepointIdOk 0 && env.tracepointIdOk 1 &&
        env.tracepointIdOk 2) = false := by simpa using h
    simp only [hx, Bool.false_eq_true, if_false]
    exact ⟨by trivial, fun hacc => hacc, fun hpo => hpo, by simp⟩

/-! ### Probe phase lemmas -/

lemma exists_of_mem_zipWith {α β γ : Type} {f : α → β → γ} {c : γ} :
    ∀ {as : List α} {bs : List β}, c ∈ List.zipWith f as bs →
      ∃ a b, a ∈ as ∧ b ∈ bs ∧ c = f a b := by
  intro as
  induction as with
  | nil => intro bs h; simp at h
  | cons a tl ih =>
      intro bs h
      cases bs with
      | nil => simp at h
      | cons b tb =>
          rw [List.zipWith_cons_cons, List.mem_cons] at h
          rcases h with h | h
          · exact ⟨a, b, by simp, by simp, h⟩
          · obtain ⟨a', b', ha, hb, hc⟩ := ih h
            exact ⟨a', b', by simp [ha], by simp [hb], hc⟩

lemma openUprobesLoop_spec (env : PerfEnv) (f : Nat) :
    ∀ (cpus : List Nat) (ups0 rets0 : List (Nat × Fd)) (s : SetupState),
      ∃ (nu nr : List (Nat × Fd)) (no : List Fd),
        (openUprobesForFunctionLoop env f cpus ups0 rets0 s).2.1
          = ups0 ++ nu ∧
        (openUprobesForFunctionLoop env f cpus ups0 rets0 s).2.2.1
          = rets0 ++ nr ∧
        (openUprobesForFunctionLoop env f cpus ups0 rets0 s).2.2.2.openedFds
          = s.openedFds ++ no ∧
        (∀ x ∈ no, x ∈ nu.map Prod.snd ∨ x ∈ nr.map Prod.snd) ∧
        OnlyFdAllocChanged s
          (openUprobesForFunctionLoop env f cpus ups0 rets0 s).2.2.2 ∧
        ((openUprobesForFunctionLoop env f cpus ups0 rets0 s).1 = false →
          nu.map Prod.fst = cpus ∧ nr.map Prod.fst = cpus) := by
  intro cpus
  induction cpus with
  | nil =>
      intro ups0 rets0 s
      refine ⟨[], [], [], ?_, ?_, ?_, ?_, ?_, ?_⟩ <;>
        simp [openUprobesForFunctionLoop, OnlyFdAllocChanged]
  | cons cpu rest ih =>
      intro ups0 rets0 s
      by_cases h1 : env.uprobesOpenOk f cpu
      · by_cases h2 : env.uretprobesOpenOk f cpu
        · have hT : openUprobesForFunctionLoop env f (cpu :: rest) ups0 rets0 s
              = openUprobesForFunctionLoop env f rest
                  (ups0 ++ [(cpu, s.nextFd)])
                  (rets0 ++ [(cpu, s.nextFd + 1)])
                  { s with nextFd := s.nextFd + 1 + 1,
                           openedFds := s.openedFds ++ [s.nextFd]
                             ++ [s.nextFd + 1] } := by
            simp [openUprobesForFunctionLoop, h1, h2, openFd]
          obtain ⟨nu, nr, no, hg, hr, ho, hsub, hunt, hfalse⟩ :=
            ih (ups0 ++ [(cpu, s.nextFd)]) (rets0 ++ [(cpu, s.nextFd + 1)])
              { s with nextFd := s.nextFd + 1 + 1,
                       openedFds := s.openedFds ++ [s.nextFd]
                         ++ [s.nextFd + 1] }
          rw [hT]
          refine ⟨(cpu, s.nextFd) :: nu, (cpu, s.nextFd + 1) :: nr,
            s.nextFd :: (s.nextFd + 1) :: no, ?_, ?_, ?_, ?_, ?_, ?_⟩
          · rw [hg]; simp
          · rw [hr]; simp
          · rw [ho]; simp
          · intro x hx
            rcases List.mem_cons.mp hx with hx | hx
            · exact Or.inl (by simp [hx])
            · rcases List.mem_cons.mp hx with hx | hx
              · exact Or.inr (by simp [hx])
              · rcases hsub x hx with h | h
                · exact Or.inl (by simp [List.mem_map] at h ⊢; tauto)
                · exact Or.inr (by simp [List.mem_map] at h ⊢; tauto)
          · exact hunt
          · intro hfl
            obtain ⟨hu, hr'⟩ := hfalse hfl
            constructor <;> simp [hu, hr']
        · have hT : openUprobesForFunctionLoop env f (cpu :: rest) ups0 rets0 s
              = (true, ups0 ++ [(cpu, s.nextFd)], rets0,
                 { s with nextFd := s.nextFd + 1,
                          openedFds := s.openedFds ++ [s.nextFd] }) := by
            simp [openUprobesForFunctionLoop, h1, h2, openFd]
          rw [hT]
          refine ⟨[(cpu, s.nextFd)], [], [s.nextFd], by simp, by simp,
            by simp, ?_, ?_, ?_⟩
          · intro x hx
            simp at hx
            exact Or.inl (by simp [hx])
          · exact ⟨rfl, rfl, rfl, rfl, rfl, rfl, rfl, rfl, rfl⟩
          · intro hfl
            simp at hfl
      · have hT : openUprobesForFunctionLoop env f (cpu :: rest) ups0 rets0 s
            = (true, ups0, rets0, s) := by
          simp [openUprobesForFunctionLoop, h1]
        rw [hT]
        refine ⟨[], [], [], by simp, by simp, by simp, by simp, ?_, ?_⟩
        · exact ⟨rfl, rfl, rfl, rfl, rfl, rfl, rfl, rfl, rfl⟩
        · intro hfl
          simp at hfl

lemma redirectLoop_spec (ups : List (Nat × Fd)) :
    ∀ (cpus : List Nat) (acc : List (Nat × Fd) × SetupState),
      ∃ u v : List Fd,
        RedirectUntouched acc.2
          ((cpus.foldl (fun a cpu => redirectUprobesOnCpu ups a cpu)
            acc).2) ∧
        ((cpus.foldl (fun a cpu => redirectUprobesOnCpu ups a cpu)
            acc).2).ringBuffers = acc.2.ringBuffers ++ u ∧
        ((cpus.foldl (fun a cpu => redirectUprobesOnCpu ups a cpu)
            acc).2).uprobesFds = acc.2.uprobesFds ++ v := by
  intro cpus
  induction cpus with
  | nil =>
      intro acc
      exact ⟨[], [], ⟨rfl, rfl, rfl, rfl, rfl, rfl, rfl, rfl⟩, by simp,
        by simp⟩
  | cons cpu rest ih =>
      intro acc
      rw [List.foldl_cons]
      obtain ⟨u, v, hunt, hrb, hup⟩ := ih (redirectUprobesOnCpu ups acc cpu)
      cases hl : acc.1.lookup cpu with
      | some x =>
          have hstep : redirectUprobesOnCpu ups acc cpu = acc := by
            simp [redirectUprobesOnCpu, hl]
          rw [hstep] at hunt hrb hup ⊢
          exact ⟨u, v, hunt, hrb, hup⟩
      | none =>
          have hstep : redirectUprobesOnCpu ups acc cpu =
              (acc.1 ++ [(cpu, (ups.lookup cpu).getD 0)],
               { acc.2 with
                 ringBuffers := acc.2.ringBuffers
                   ++ [(ups.lookup cpu).getD 0],
                 uprobesFds := acc.2.uprobesFds
                   ++ [(ups.lookup cpu).getD 0] }) := by
            simp [redirectUprobesOnCpu, hl]
          rw [hstep] at hunt hrb hup ⊢
          refine ⟨(ups.lookup cpu).getD 0 :: u, (ups.lookup cpu).getD 0 :: v,
            hunt, ?_, ?_⟩
          · rw [hrb]; simp
          · rw [hup]; simp

lemma extends_processFunction (env : PerfEnv) (cpus : List Nat) (f : Nat)
    (acc : List (Nat × Fd) × SetupState) :
    SetupExtends acc.2 (ProcessInstrumentedFunction env cpus f acc).2 := by
  set T := openUprobesForFunctionLoop env f cpus [] [] acc.2 with hT
  obtain ⟨nu, nr, no, hg, hr, ho, hsub, hunt, hfalse⟩ :=
    openUprobesLoop_spec env f cpus [] [] acc.2
  rw [← hT] at hg hr ho hunt hfalse
  obtain ⟨htr, hcl, hupf, hgpu, hrb, hids, hlk, hproc, hpp⟩ := hunt
  simp only [List.nil_append] at hg hr
  by_cases hb : T.1
  · have hgoal : (ProcessInstrumentedFunction env cpus f acc).2 =
        { T.2.2.2 with
          perfEventOpenErrors := true,
          uprobesEventOpenErrors := true,
          closedFds := T.2.2.2.closedFds ++ T.2.1.map Prod.snd
            ++ T.2.2.1.map Prod.snd } := by
      simp only [ProcessInstrumentedFunction, ← hT, hb, if_true]
    rw [hgoal]
    refine ⟨hgpu, hproc, ?_, ?_⟩
    · intro hacc
      refine fdsAccounted_extend (no) ho ⟨[], by simp [htr]⟩
        ⟨nu.map Prod.snd ++ nr.map Prod.snd, ?_⟩ ⟨[], by simp [hlk]⟩ ?_ hacc
      · simp only [hg, hr, hcl, List.append_assoc]
      · intro fd hfd
        refine Or.inr (Or.inl ?_)
        simp only [hg, hr, hcl, List.append_assoc]
        rcases hsub fd hfd with h | h
        · exact List.mem_append_right _ (List.mem_append_left _ h)
        · exact List.mem_append_right _ (List.mem_append_right _ h)
    · intro hpo
      exact pairsOrdered_extend ([]) (by simp [htr]) hpp hpo
  · have hgoal : ProcessInstrumentedFunction env cpus f acc =
        cpus.foldl (fun a cpu => redirectUprobesOnCpu T.2.1 a cpu)
          (acc.1,
           { T.2.2.2 with
             tracingFds := T.2.2.2.tracingFds ++ T.2.2.1.map Prod.snd
               ++ T.2.1.map Prod.snd,
             uprobesIdsToFunction := T.2.2.2.uprobesIdsToFunction
               ++ T.2.1.map (fun p => (env.streamId p.2, f))
               ++ T.2.2.1.map (fun p => (env.streamId p.2, f)),
             committedProbePairs := T.2.2.2.committedProbePairs
               ++ List.zipWith (fun u r => (f, u.1, r.2, u.2)) T.2.1
                 T.2.2.1 }) := by
      simp only [ProcessInstrumentedFunction, ← hT, hb, Bool.false_eq_true,
        if_false]
    rw [hgoal]
    obtain ⟨u, v, hru, hrrb, hrup⟩ := redirectLoop_spec T.2.1 cpus
      (acc.1,
       { T.2.2.2 with
         tracingFds := T.2.2.2.tracingFds ++ T.2.2.1.map Prod.snd
           ++ T.2.1.map Prod.snd,
         uprobesIdsToFunction := T.2.2.2.uprobesIdsToFunction
           ++ T.2.1.map (fun p => (env.streamId p.2, f))
           ++ T.2.2.1.map (fun p => (env.streamId p.2, f)),
         committedProbePairs := T.2.2.2.committedProbePairs
           ++ List.zipWith (fun u r => (f, u.1, r.2, u.2)) T.2.1 T.2.2.1 })
    obtain ⟨hro, hrt, hrc, hrg, hrid, hrlk, hrpr, hrpp⟩ := hru
    refine ⟨by rw [hrg]; exact hgpu, by rw [hrpr]; exact hproc, ?_, ?_⟩
    · intro hacc
      refine fdsAccounted_extend (no) (by rw [hro]; exact ho)
        ⟨nr.map Prod.snd ++ nu.map Prod.snd, ?_⟩
        ⟨[], by rw [hrc]; simp [hcl]⟩
        ⟨[], by rw [hrlk]; simp [hlk]⟩ ?_ hacc
      · rw [hrt]
        simp only [hg, hr, htr, List.append_assoc]
      · intro fd hfd
        refine Or.inl ?_
        rw [hrt]
        simp only [hg, hr, htr, List.append_assoc]
        rcases hsub fd hfd with h | h
        · exact List.mem_append_right _ (List.mem_append_right _ h)
        · exact List.mem_append_right _ (List.mem_append_left _ h)
    · intro hpo
      intro p hp
      rw [hrpp] at hp
      simp only [hg, hr, hpp] at hp
      rcases List.mem_append.mp hp with hp | hp
      · obtain ⟨l1, l2, l3, hl⟩ := hpo p hp
        refine ⟨l1, l2, l3 ++ (nr.map Prod.snd ++ nu.map Prod.snd), ?_⟩
        rw [hrt]
        simp only [hg, hr, htr, hl]
        simp
      · obtain ⟨pu, pr, hpu, hpr, hpeq⟩ := exists_of_mem_zipWith hp
        subst hpeq
        have hru2 : pr.2 ∈ nr.map Prod.snd := List.mem_map_of_mem _ hpr
        have huu2 : pu.2 ∈ nu.map Prod.snd := List.mem_map_of_mem _ hpu
        obtain ⟨a, b, hab⟩ := List.mem_iff_append.mp hru2
        obtain ⟨c, d, hcd⟩ := List.mem_iff_append.mp huu2
        refine ⟨acc.2.tracingFds ++ a, b ++ c, d, ?_⟩
        rw [hrt]
        simp only [hg, hr, htr, hab, hcd]
        simp

lemma extends_probes_foldl (env : PerfEnv) (cpus : List Nat) :
    ∀ (fs : List Nat) (acc : List (Nat × Fd) × SetupState),
      SetupExtends acc.2
        ((fs.foldl (fun a f => ProcessInstrumentedFunction env cpus f a)
          acc).2) := by
  intro fs
  induction fs with
  | nil => intro acc; exact setupExtends_refl _
  | cons f tl ih =>
      intro acc
      rw [List.foldl_cons]
      exact setupExtends_trans (extends_processFunction env cpus f acc) (ih _)

lemma extends_phaseUprobes (cfg : TracerConfig) (env : PerfEnv)
    (s : SetupState) : SetupExtends s (phaseUprobes cfg env s) := by
  unfold phaseUprobes OpenUserSpaceProbes
  by_cases h : cfg.traceInstrumentedFunctions
  · simp only [h, if_true]
    exact extends_probes_foldl env (cpusetCpus cfg env)
      cfg.instrumentedFunctions ([], s)
  · simp only [h, if_false]
    exact setupExtends_refl s

lemma gpuCommit_eq (env : PerfEnv) (cpus : List Nat) (s : SetupState)
    (hb : (openGpuTracepointsLoop env cpus [] [] s).1 = true) :
    OpenGpuTracepoints env cpus s =
      (true,
       { (openGpuTracepointsLoop env cpus [] [] s).2.2.2 with
         gpuTracingFds :=
           (openGpuTracepointsLoop env cpus [] [] s).2.2.2.gpuTracingFds
           ++ (openGpuTracepointsLoop env cpus [] [] s).2.1,
         tracingFds :=
           (openGpuTracepointsLoop env cpus [] [] s).2.2.2.tracingFds
           ++ (openGpuTracepointsLoop env cpus [] [] s).2.1,
         ringBuffers :=
           (openGpuTracepointsLoop env cpus [] [] s).2.2.2.ringBuffers
           ++ (openGpuTracepointsLoop env cpus [] [] s).2.2.1 }) := by
  simp only [OpenGpuTracepoints, hb, if_true]

lemma gpuRollback_eq (env : PerfEnv) (cpus : List Nat) (s : SetupState)
    (hb : (openGpuTracepointsLoop env cpus [] [] s).1 = false) :
    OpenGpuTracepoints env cpus s =
      (false,
       { (openGpuTracepointsLoop env cpus [] [] s).2.2.2 with
         closedFds :=
           (openGpuTracepointsLoop env cpus [] [] s).2.2.2.closedFds
           ++ (openGpuTracepointsLoop env cpus [] [] s).2.1 }) := by
  simp only [OpenGpuTracepoints, hb, Bool.false_eq_true, if_false]

lemma gpuPhase_preserves (cfg : TracerConfig) (env : PerfEnv)
    (s : SetupState) :
    (FdsAccounted s → FdsAccounted (phaseGpu cfg env s)) ∧
    (PairsOrdered s → PairsOrdered (phaseGpu cfg env s)) ∧
    (phaseGpu cfg env s).gpuEventProcessor = s.gpuEventProcessor := by
  unfold phaseGpu
  by_cases hf : cfg.traceGpuDriverEvents
  · simp only [hf, if_true]
    obtain ⟨n, m, hgq, hrq, hoq, htq, hcq, hgpq, huq, hrbq, hidq, hlq, hpq,
      hppq, hokq⟩ := gpuStep_loop env (allCpus cfg) [] [] s
    simp only [List.nil_append] at hgq hrq
    by_cases hb : (openGpuTracepointsLoop env (allCpus cfg) [] [] s).1
    · rw [gpuCommit_eq env (allCpus cfg) s hb]
      refine ⟨?_, ?_, hpq⟩
      · intro hacc
        refine fdsAccounted_extend (n) hoq
          ⟨n, by rw [htq, hgq]⟩ ⟨[], by simp [hcq]⟩ ⟨[], by simp [hlq]⟩
          ?_ hacc
        intro fd hfd
        exact Or.inl (by rw [htq, hgq]; exact List.mem_append_right _ hfd)
      · intro hpo
        exact pairsOrdered_extend (n) (by rw [htq, hgq]) hppq hpo
    · have hb' : (openGpuTracepointsLoop env (allCpus cfg) [] [] s).1
          = false := by simpa using hb
      rw [gpuRollback_eq env (allCpus cfg) s hb']
      refine ⟨?_, ?_, hpq⟩
      · intro hacc
        refine fdsAccounted_extend (n) hoq ⟨[], by simp [htq]⟩
          ⟨n, by rw [hcq, hgq]⟩ ⟨[], by simp [hlq]⟩ ?_ hacc
        intro fd hfd
        exact Or.inr (Or.inl
          (by rw [hcq, hgq]; exact List.mem_append_right _ hfd))
      · intro hpo
        exact pairsOrdered_extend ([]) (by simp [htq]) hppq hpo
  · simp only [hf, if_false]
    exact ⟨fun h => h, fun h => h, rfl⟩

/-- C1 counterexample: with context-switch tracing requested on one core in
an environment where `context_switch_event_open` succeeds (returning fd 3)
but mapping its ring buffer fails, the opening phase leaves fd 3 open:
not committed to `tracing_fds_`, never closed — contradicting the claim that
every opened fd is committed or closed, in particular when its ring buffer
fails to map. -/
theorem context_switch_fd_leaked_on_ring_buffer_map_failure :
    3 ∈ (RunSetup ctxSwitchOnlyConfig ctxSwitchMapFailEnv).openedFds ∧
    3 ∉ (RunSetup ctxSwitchOnlyConfig ctxSwitchMapFailEnv).tracingFds ∧
    3 ∉ (RunSetup ctxSwitchOnlyConfig ctxSwitchMapFailEnv).closedFds ∧
    3 ∈ (RunSetup ctxSwitchOnlyConfig ctxSwitchMapFailEnv).leakedFds := by
  decide

/-- C1 (amended): after the opening phase, every fd the engine opened is
either committed to `tracing_fds_`, or already closed (probe and GPU
rollbacks), or is a context-switch/mmap-task/sampling fd whose ring buffer
failed to map, which the code leaves open and untracked (the ghost
`leakedFds`).  The last case is the leak the counterexample exhibits. -/
theorem opened_fd_committed_closed_or_leaked (cfg : TracerConfig)
    (env : PerfEnv) :
    ∀ fd ∈ (RunSetup cfg env).openedFds,
      fd ∈ (RunSetup cfg env).tracingFds ∨
      fd ∈ (RunSetup cfg env).closedFds ∨
      fd ∈ (RunSetup cfg env).leakedFds := by
  have hacc : FdsAccounted (RunSetup cfg env) := by
    simp only [RunSetup]
    apply (gpuPhase_preserves cfg env _).1
    apply (extends_phaseSampling cfg env _).2.2.1
    apply (extends_phaseMmapTask cfg env _).2.2.1
    apply (extends_phaseUprobes cfg env _).2.2.1
    apply (initGpu_preserves env _).2.1
    apply (extends_phaseContextSwitches cfg env _).2.2.1
    intro fd hfd
    simp [SetupState.initial] at hfd
  exact hacc

/-- C1 witness for the amended claim. -/
theorem opened_fd_committed_closed_or_leaked_witness :
    3 ∈ (RunSetup fullDemoConfig allOkEnv).openedFds ∧
    (3 ∈ (RunSetup fullDemoConfig allOkEnv).tracingFds ∨
     3 ∈ (RunSetup fullDemoConfig allOkEnv).closedFds ∨
     3 ∈ (RunSetup fullDemoConfig allOkEnv).leakedFds) :=
  ⟨by decide,
   opened_fd_committed_closed_or_leaked fullDemoConfig allOkEnv 3 (by decide)⟩

/-- C4: every committed probe pair for the same (function, cpu) has its
uretprobe (return-probe) fd appended to `tracing_fds_` strictly before its
uprobe (entry-probe) fd; since `perf_event_enable` iterates `tracing_fds_`
in order (lines 310-313), the return probe is enabled before the entry
probe. -/
theorem uretprobe_fd_precedes_uprobe_fd_in_enable_order
    (cfg : TracerConfig) (env : PerfEnv) (f cpu : Nat) (retFd upFd : Fd)
    (hp : (f, cpu, retFd, upFd) ∈ (RunSetup cfg env).committedProbePairs) :
    ∃ l1 l2 l3, (RunSetup cfg env).tracingFds
      = l1 ++ retFd :: (l2 ++ upFd :: l3) := by
  have hpo : PairsOrdered (RunSetup cfg env) := by
    simp only [RunSetup]
    apply (gpuPhase_preserves cfg env _).2.1
    apply (extends_phaseSampling cfg env _).2.2.2
    apply (extends_phaseMmapTask cfg env _).2.2.2
    apply (extends_phaseUprobes cfg env _).2.2.2
    apply (initGpu_preserves env _).2.2.1
    apply (extends_phaseContextSwitches cfg env _).2.2.2
    intro p hp'
    simp [SetupState.initial] at hp'
  exact hpo (f, cpu, retFd, upFd) hp

/-- C4 witness. -/
theorem uretprobe_fd_precedes_uprobe_fd_in_enable_order_witness :
    (0, 0, 5, 4) ∈ (RunSetup fullDemoConfig allOkEnv).committedProbePairs ∧
    ∃ l1 l2 l3, (RunSetup fullDemoConfig allOkEnv).tracingFds
      = l1 ++ 5 :: (l2 ++ 4 :: l3) :=
  ⟨by decide,
   uretprobe_fd_precedes_uprobe_fd_in_enable_order fullDemoConfig allOkEnv
     0 0 5 4 (by decide)⟩

/-- C2: `OpenGpuTracepoints` is all-or-nothing.  If opening any of the three
GPU tracepoints on any cpu fails (perf open or ring-buffer map), it returns
false, every GPU fd opened during the call is closed, and nothing is
committed: `gpu_tracing_fds_`, `tracing_fds_`, `ring_buffers_`,
`uprobes_fds_`, the stream-id map and every other member are exactly as
before, so all non-GPU sources are unaffected and no sample will ever be
classified as a GPU event (GPU tracing is disabled for the run, with
`gpu_event_open_errors` set by the caller from the false return).  If every
open succeeds, it returns true and every GPU fd and every GPU ring buffer is
committed. -/
theorem gpu_tracepoint_open_all_or_nothing (env : PerfEnv)
    (cpus : List Nat) (s : SetupState) :
    ((OpenGpuTracepoints env cpus s).1 = false →
      (OpenGpuTracepoints env cpus s).2.gpuTracingFds = s.gpuTracingFds ∧
      (OpenGpuTracepoints env cpus s).2.tracingFds = s.tracingFds ∧
      (OpenGpuTracepoints env cpus s).2.ringBuffers = s.ringBuffers ∧
      (OpenGpuTracepoints env cpus s).2.uprobesFds = s.uprobesFds ∧
      (OpenGpuTracepoints env cpus s).2.uprobesIdsToFunction
        = s.uprobesIdsToFunction ∧
      (OpenGpuTracepoints env cpus s).2.leakedFds = s.leakedFds ∧
      (∀ fd ∈ (OpenGpuTracepoints env cpus s).2.openedFds,
        fd ∈ s.openedFds ∨ fd ∈ (OpenGpuTracepoints env cpus s).2.closedFds))
    ∧ ((OpenGpuTracepoints env cpus s).1 = true →
      ∃ newFds,
        (OpenGpuTracepoints env cpus s).2.openedFds
          = s.openedFds ++ newFds ∧
        (OpenGpuTracepoints env cpus s).2.gpuTracingFds
          = s.gpuTracingFds ++ newFds ∧
        (OpenGpuTracepoints env cpus s).2.tracingFds
          = s.tracingFds ++ newFds ∧
        (OpenGpuTracepoints env cpus s).2.ringBuffers
          = s.ringBuffers ++ newFds ∧
        (OpenGpuTracepoints env cpus s).2.closedFds = s.closedFds) := by
  obtain ⟨n, m, hgq, hrq, hoq, htq, hcq, hgpq, huq, hrbq, hidq, hlq, hpq,
    hppq, hokq⟩ := gpuStep_loop env cpus [] [] s
  simp only [List.nil_append] at hgq hrq
  by_cases hb : (openGpuTracepointsLoop env cpus [] [] s).1
  · rw [gpuCommit_eq env cpus s hb]
    constructor
    · intro hfalse
      simp at hfalse
    · intro _
      refine ⟨n, hoq, ?_, ?_, ?_, hcq⟩
      · rw [hgpq, hgq]
      · rw [htq, hgq]
      · rw [hrbq, hrq, hokq hb]
  · have hb' : (openGpuTracepointsLoop env cpus [] [] s).1 = false := by
      simpa using hb
    rw [gpuRollback_eq env cpus s hb']
    constructor
    · intro _
      refine ⟨hgpq, htq, hrbq, huq, hidq, hlq, ?_⟩
      intro fd hfd
      rw [hoq] at hfd
      rcases List.mem_append.mp hfd with h | h
      · exact Or.inl h
      · exact Or.inr (by rw [hcq, hgq]; exact List.mem_append_right _ h)
    · intro htrue
      simp at htrue

/-- C2 witness: on two cpus with `amdgpu_sched_run_job` failing on cpu 1
nothing is committed (spec scenario "Partial GPU open"); on one cpu with
every open succeeding everything is committed. -/
theorem gpu_tracepoint_open_all_or_nothing_witness :
    (OpenGpuTracepoints gpuSchedRunJobFailEnv [0, 1]
        SetupState.initial).2.tracingFds
      = SetupState.initial.tracingFds
    ∧ ∃ newFds,
        (OpenGpuTracepoints allOkEnv [0] SetupState.initial).2.openedFds
          = SetupState.initial.openedFds ++ newFds ∧
        (OpenGpuTracepoints allOkEnv [0] SetupState.initial).2.gpuTracingFds
          = SetupState.initial.gpuTracingFds ++ newFds ∧
        (OpenGpuTracepoints allOkEnv [0] SetupState.initial).2.tracingFds
          = SetupState.initial.tracingFds ++ newFds ∧
        (OpenGpuTracepoints allOkEnv [0] SetupState.initial).2.ringBuffers
          = SetupState.initial.ringBuffers ++ newFds ∧
        (OpenGpuTracepoints allOkEnv [0] SetupState.initial).2.closedFds
          = SetupState.initial.closedFds :=
  ⟨((gpu_tracepoint_open_all_or_nothing gpuSchedRunJobFailEnv [0, 1]
      SetupState.initial).1 (by decide)).2.1,
   (gpu_tracepoint_open_all_or_nothing allOkEnv [0] SetupState.initial).2
     (by decide)⟩

/-- C3: for one instrumented function, if opening the entry (uprobe) or
return (uretprobe) probe on any cpu of the cpuset fails, every fd already
opened for that function is closed, none of its fds enters `tracing_fds_` or
the stream-id-to-function map, nothing else changes
(`uprobes_ring_buffer_fds_per_cpu`, `uprobes_fds_`, `ring_buffers_` and the
committed pairs are untouched) and `uprobes_event_open_errors` is set; the
function loop then continues with the next function.  If every open for the
function succeeds, commitment is all-or-nothing: for every cpu of the cpuset
both the entry and the return fd are committed to `tracing_fds_`. -/
theorem uprobes_function_rollback_on_failure (env : PerfEnv)
    (cpus : List Nat) (f : Nat) (rb : List (Nat × Fd)) (s : SetupState) :
    ((openUprobesForFunctionLoop env f cpus [] [] s).1 = true →
      (ProcessInstrumentedFunction env cpus f (rb, s)).1 = rb ∧
      (ProcessInstrumentedFunction env cpus f (rb, s)).2.tracingFds
        = s.tracingFds ∧
      (ProcessInstrumentedFunction env cpus f (rb, s)).2.uprobesIdsToFunction
        = s.uprobesIdsToFunction ∧
      (ProcessInstrumentedFunction env cpus f (rb, s)).2.uprobesFds
        = s.uprobesFds ∧
      (ProcessInstrumentedFunction env cpus f (rb, s)).2.ringBuffers
        = s.ringBuffers ∧
      (ProcessInstrumentedFunction env cpus f (rb, s)).2.committedProbePairs
        = s.committedProbePairs ∧
      (ProcessInstrumentedFunction env cpus f
        (rb, s)).2.uprobesEventOpenErrors = true ∧
      (∀ fd ∈ (ProcessInstrumentedFunction env cpus f (rb, s)).2.openedFds,
        fd ∈ s.openedFds ∨
          fd ∈ (ProcessInstrumentedFunction env cpus f (rb, s)).2.closedFds))
    ∧ ((openUprobesForFunctionLoop env f cpus [] [] s).1 = false →
      ∀ cpu ∈ cpus, ∃ ufd rfd,
        (cpu, ufd) ∈ (openUprobesForFunctionLoop env f cpus [] [] s).2.1 ∧
        (cpu, rfd) ∈ (openUprobesForFunctionLoop env f cpus [] [] s).2.2.1 ∧
        ufd ∈ (ProcessInstrumentedFunction env cpus f (rb, s)).2.tracingFds ∧
        rfd ∈ (ProcessInstrumentedFunction env cpus f
          (rb, s)).2.tracingFds) := by
  set T := openUprobesForFunctionLoop env f cpus [] [] s with hT
  obtain ⟨nu, nr, no, hg, hr, ho, hsub, hunt, hfalse⟩ :=
    openUprobesLoop_spec env f cpus [] [] s
  rw [← hT] at hg hr ho hunt hfalse
  obtain ⟨htr, hcl, hupf, hgpu, hrb, hids, hlk, hproc, hpp⟩ := hunt
  simp only [List.nil_append] at hg hr
  constructor
  · intro hb
    have hgoal : ProcessInstrumentedFunction env cpus f (rb, s) =
        (rb,
         { T.2.2.2 with
           perfEventOpenErrors := true,
           uprobesEventOpenErrors := true,
           closedFds := T.2.2.2.closedFds ++ T.2.1.map Prod.snd
             ++ T.2.2.1.map Prod.snd }) := by
      simp only [ProcessInstrumentedFunction, ← hT, hb, if_true]
    rw [hgoal]
    refine ⟨rfl, htr, hids, hupf, hrb, hpp, rfl, ?_⟩
    intro fd hfd
    rw [ho] at hfd
    rcases List.mem_append.mp hfd with h | h
    · exact Or.inl h
    · refine Or.inr ?_
      simp only [hg, hr, hcl, List.append_assoc]
      rcases hsub fd h with h' | h'
      · exact List.mem_append_right _ (List.mem_append_left _ h')
      · exact List.mem_append_right _ (List.mem_append_right _ h')
  · intro hb cpu hcpu
    have hb' : T.1 = false := hb
    obtain ⟨hnu, hnr⟩ := hfalse hb'
    have hgoal : ProcessInstrumentedFunction env cpus f (rb, s) =
        cpus.foldl (fun a cpu => redirectUprobesOnCpu T.2.1 a cpu)
          (rb,
           { T.2.2.2 with
             tracingFds := T.2.2.2.tracingFds ++ T.2.2.1.map Prod.snd
               ++ T.2.1.map Prod.snd,
             uprobesIdsToFunction := T.2.2.2.uprobesIdsToFunction
               ++ T.2.1.map (fun p => (env.streamId p.2, f))
               ++ T.2.2.1.map (fun p => (env.streamId p.2, f)),
             committedProbePairs := T.2.2.2.committedProbePairs
               ++ List.zipWith (fun u r => (f, u.1, r.2, u.2)) T.2.1
                 T.2.2.1 }) := by
      simp only [ProcessInstrumentedFunction, ← hT, hb', Bool.false_eq_true,
        if_false]
    rw [hgoal]
    obtain ⟨u, v, hru, hrrb, hrup⟩ := redirectLoop_spec T.2.1 cpus
      (rb,
       { T.2.2.2 with
         tracingFds := T.2.2.2.tracingFds ++ T.2.2.1.map Prod.snd
           ++ T.2.1.map Prod.snd,
         uprobesIdsToFunction := T.2.2.2.uprobesIdsToFunction
           ++ T.2.1.map (fun p => (env.streamId p.2, f))
           ++ T.2.2.1.map (fun p => (env.streamId p.2, f)),
         committedProbePairs := T.2.2.2.committedProbePairs
           ++ List.zipWith (fun u r => (f, u.1, r.2, u.2)) T.2.1 T.2.2.1 })
    obtain ⟨hro, hrt, hrc, hrg, hrid, hrlk, hrpr, hrpp⟩ := hru
    have hcpu_u : cpu ∈ nu.map Prod.fst := by rw [hnu]; exact hcpu
    have hcpu_r : cpu ∈ nr.map Prod.fst := by rw [hnr]; exact hcpu
    obtain ⟨pu, hpu, hpueq⟩ := List.mem_map.mp hcpu_u
    obtain ⟨pr, hpr, hpreq⟩ := List.mem_map.mp hcpu_r
    refine ⟨pu.2, pr.2, ?_, ?_, ?_, ?_⟩
    · rw [hg]
      have : pu = (cpu, pu.2) := by
        rw [← hpueq]
      rw [← this]
      exact hpu
    · rw [hr]
      have : pr = (cpu, pr.2) := by
        rw [← hpreq]
      rw [← this]
      exact hpr
    · rw [hrt]
      simp only [hg, hr, htr, List.append_assoc]
      exact List.mem_append_right _ (List.mem_append_right _
        (List.mem_map_of_mem _ hpu))
    · rw [hrt]
      simp only [hg, hr, htr, List.append_assoc]
      exact List.mem_append_right _ (List.mem_append_left _
        (List.mem_map_of_mem _ hpr))

/-- C3 witness: with the uretprobe open failing on the single cpuset cpu,
the function's already opened uprobe fd (fd 3) is rolled back — closed,
untracked — and the error flag is set; with every open succeeding, both fds
of the (function 0, cpu 0) pair are committed. -/
theorem uprobes_function_rollback_on_failure_witness :
    (ProcessInstrumentedFunction uretprobeFailEnv [0] 0
      ([], SetupState.initial)).2.tracingFds
        = SetupState.initial.tracingFds
    ∧ ∃ ufd rfd,
        (0, ufd) ∈ (openUprobesForFunctionLoop allOkEnv 0 [0] [] []
          SetupState.initial).2.1 ∧
        (0, rfd) ∈ (openUprobesForFunctionLoop allOkEnv 0 [0] [] []
          SetupState.initial).2.2.1 ∧
        ufd ∈ (ProcessInstrumentedFunction allOkEnv [0] 0
          ([], SetupState.initial)).2.tracingFds ∧
        rfd ∈ (ProcessInstrumentedFunction allOkEnv [0] 0
          ([], SetupState.initial)).2.tracingFds :=
  ⟨((uprobes_function_rollback_on_failure uretprobeFailEnv [0] 0 []
      SetupState.initial).1 (by decide)).2.1,
   (uprobes_function_rollback_on_failure allOkEnv [0] 0 []
      SetupState.initial).2 (by decide) 0 (by decide)⟩

lemma pushGpu_implies_gpu_fd (ctx : SampleDispatchCtx) (r : SampleRecord)
    (x : Fd)
    (h : (ProcessSampleEvent ctx r).1 = SampleAction.pushGpuEvent x) :
    r.fd ∈ ctx.gpuTracingFds := by
  by_cases hg : r.fd ∈ ctx.gpuTracingFds
  · exact hg
  · exfalso
    by_cases hp : r.fd ∈ ctx.uprobesFds <;>
      by_cases hpid : r.pid = ctx.tracedPid <;>
      by_cases hsz : r.headerSize = ctx.emptySampleSize <;>
      simp [ProcessSampleEvent, hg, hp, hpid, hsz] at h

/-- C10: whenever `ProcessSampleEvent` classifies a sample as a GPU
tracepoint event (and so calls `gpu_event_processor_->PushEvent`), the GPU
event processor is non-null.  Although the failure of
`InitGpuTracepointEventProcessor` is merely logged and the GPU tracepoint
fds are opened afterwards, both resolve the same three tracepoint ids
through `/sys/.../id`, so a committed GPU fd implies all three ids resolved
and hence that the processor was constructed. -/
theorem gpu_sample_implies_processor_initialized (cfg : TracerConfig)
    (env : PerfEnv) (tracedPid emptySize : Nat) (r : SampleRecord)
    (h : (ProcessSampleEvent
      ((RunSetup cfg env).sampleCtx tracedPid emptySize) r).1
        = SampleAction.pushGpuEvent r.fd) :
    (RunSetup cfg env).gpuEventProcessor = true := by
  have hmem : r.fd ∈ (RunSetup cfg env).gpuTracingFds :=
    pushGpu_implies_gpu_fd _ _ _ h
  clear h
  simp only [RunSetup] at hmem ⊢
  have hg5 : (phaseSampling cfg env (phaseMmapTask cfg env (phaseUprobes cfg
      env (InitGpuTracepointEventProcessor env (phaseContextSwitches cfg env
        SetupState.initial))))).gpuTracingFds = [] := by
    rw [(extends_phaseSampling cfg env _).1,
      (extends_phaseMmapTask cfg env _).1, (extends_phaseUprobes cfg env _).1,
      (initGpu_preserves env _).1,
      (extends_phaseContextSwitches cfg env _).1]
    rfl
  have hproc5 : (phaseSampling cfg env (phaseMmapTask cfg env (phaseUprobes
      cfg env (InitGpuTracepointEventProcessor env (phaseContextSwitches cfg
        env SetupState.initial))))).gpuEventProcessor
      = (env.tracepointIdOk 0 && env.tracepointIdOk 1 &&
          env.tracepointIdOk 2) := by
    rw [(extends_phaseSampling cfg env _).2.1,
      (extends_phaseMmapTask cfg env _).2.1,
      (extends_phaseUprobes cfg env _).2.1,
      (initGpu_preserves env _).2.2.2,
      (extends_phaseContextSwitches cfg env _).2.1]
    simp [SetupState.initial]
  set s5 := phaseSampling cfg env (phaseMmapTask cfg env (phaseUprobes cfg
    env (InitGpuTracepointEventProcessor env (phaseContextSwitches cfg env
      SetupState.initial)))) with hs5
  rw [(gpuPhase_preserves cfg env s5).2.2, hproc5]
  unfold phaseGpu at hmem
  by_cases hf : cfg.traceGpuDriverEvents
  · simp only [hf, if_true] at hmem
    have hmem2 : r.fd ∈
        (OpenGpuTracepoints env (allCpus cfg) s5).2.gpuTracingFds := hmem
    obtain ⟨n, m, hgq, hrq, hoq, htq, hcq, hgpq, huq, hrbq, hidq, hlq, hpq,
      hppq, hokq⟩ := gpuStep_loop env (allCpus cfg) [] [] s5
    by_cases hb : (openGpuTracepointsLoop env (allCpus cfg) [] [] s5).1
    · rw [gpuCommit_eq env (allCpus cfg) s5 hb] at hmem2
      have hmem3 : r.fd ∈
          (openGpuTracepointsLoop env (allCpus cfg) [] []
            s5).2.2.2.gpuTracingFds
          ++ (openGpuTracepointsLoop env (allCpus cfg) [] [] s5).2.1 :=
        hmem2
      rw [hgpq, hg5, hgq] at hmem3
      simp only [List.nil_append] at hmem3
      cases hcp : allCpus cfg with
      | nil =>
          exfalso
          rw [hcp] at hgq
          have hn : n = [] := by
            simpa [openGpuTracepointsLoop] using hgq.symm
          rw [hn] at hmem3
          simp at hmem3
      | cons c rest =>
          have htp := loop_ok_tpIds env c rest [] [] s5
            (by rw [← hcp]; exact hb)
          simp [htp.1, htp.2.1, htp.2.2]
    · have hb' : (openGpuTracepointsLoop env (allCpus cfg) [] [] s5).1
          = false := by simpa using hb
      rw [gpuRollback_eq env (allCpus cfg) s5 hb'] at hmem2
      exfalso
      have hmem3 : r.fd ∈
          (openGpuTracepointsLoop env (allCpus cfg) [] []
            s5).2.2.2.gpuTracingFds := hmem2
      rw [hgpq, hg5] at hmem3
      simp at hmem3
  · exfalso
    simp only [hf, Bool.false_eq_true, if_false] at hmem
    rw [hg5] at hmem
    simp at hmem

/-- C10 witness. -/
theorem gpu_sample_implies_processor_initialized_witness :
    (ProcessSampleEvent ((RunSetup gpuOnlyConfig allOkEnv).sampleCtx 100 72)
      { fd := 4, headerSize := 80, pid := 55, streamId := 0 }).1
      = SampleAction.pushGpuEvent 4
    ∧ (RunSetup gpuOnlyConfig allOkEnv).gpuEventProcessor = true :=
  ⟨by decide,
   gpu_sample_implies_processor_initialized gpuOnlyConfig allOkEnv 100 72
     { fd := 4, headerSize := 80, pid := 55, streamId := 0 } (by decide)⟩

end LinuxTracing
